import Mathlib

/-!
# Verification development for the autoiptv channel pipeline

Shallow embedding of the core pipeline of the `yifoo/autoiptv` repository:
name normalization (`utils/channel_cleaner.py`), categorization and source
prioritization (`config/categories.py`), merge of same-name channels
(`utils/m3u_processor.py`), the black/white-list filter
(`utils/black_white_list.py`, `main.py`), and the speed-probe result shaping
(`utils/speed_test.py`).

Python strings are modelled as Lean `String`/`List Char`; Python floats as
`ℚ`; Python `set` membership as membership in duplicate-free lists kept in
insertion order; fallible external actions (HTTP probes, the regex patterns
of the whitelist, the `ipaddress.IPv6Address` parser) are modelled as
explicit inputs / oracle parameters.  Case-insensitive matching is modelled
with ASCII case folding (`Char.toLower`); all the non-ASCII text in the
rule tables is CJK, which has no case, so this agrees with Python's
Unicode folding on the rule tables.
-/

namespace AutoIPTV

/-! ## Basic string helpers (Python semantics) -/

/-- Python substring containment `needle in haystack` on strings. -/
def hasSub (needle haystack : String) : Bool :=
  let n := needle.toList
  let h := haystack.toList
  (List.range (h.length + 1)).any (fun i => n.isPrefixOf (h.drop i))

/-- ASCII-folding lower case on characters, the model of Python
`str.lower()` / `re.IGNORECASE` on the (ASCII or CJK) text appearing in
this code base. -/
def lowerChars (cs : List Char) : List Char := cs.map Char.toLower

/-- Model of `str.lower()` on strings. -/
def lowerStr (s : String) : String := (lowerChars s.toList).asString

/-- Tests whether `pre` is a prefix of `s` (Python `s.startswith(pre)`). -/
def startsWithS (s pre : String) : Bool := pre.toList.isPrefixOf s.toList

/-- Tests whether `suf` is a suffix of `s` (Python `s.endswith(suf)`). -/
def endsWithS (s suf : String) : Bool := suf.toList.isSuffixOf s.toList

/-- The whitespace characters matched by Python's `\s` (ASCII part). -/
def isPyWs (c : Char) : Bool :=
  c = ' ' || c = '\t' || c = '\n' || c = '\r' || c = '\x0b' || c = '\x0c'

/-- Characters of the class `[_\-\s]` used throughout `CLEAN_RULES`. -/
def isSepChar (c : Char) : Bool :=
  c = '_' || c = '-' || isPyWs c

/-- Python `str.count(c)` for a single character. -/
def countChar (c : Char) (s : String) : Nat := s.toList.count c

/-- Worker for `pySplit`: splits on the (non-empty) separator, scanning
left to right.  `fuel` is structural-recursion fuel; every step consumes
at least one input character, so `fuel = cs.length + 1` never runs out. -/
def splitAux (sep : List Char) : Nat → List Char → List Char → List (List Char)
  | 0, _, acc => [acc.reverse]
  | _ + 1, [], acc => [acc.reverse]
  | n + 1, c :: rest, acc =>
    if sep.isPrefixOf (c :: rest) then
      acc.reverse :: splitAux sep n ((c :: rest).drop sep.length) []
    else
      splitAux sep n rest (c :: acc)

/-- Python `s.split(sep)` for a non-empty separator. -/
def pySplit (sep s : String) : List String :=
  (splitAux sep.toList (s.toList.length + 1) s.toList []).map List.asString

end AutoIPTV

namespace AutoIPTV

/-! ## Configuration (`config.txt` flags consumed by the embedded code) -/

/-- The configuration flags read by the embedded functions
(`config['...']` lookups in the source). -/
structure Config where
  ENABLE_WHITELIST : Bool
  ENABLE_BLACKLIST : Bool
  WHITELIST_OVERRIDE_BLACKLIST : Bool
  ENABLE_SPEED_TEST : Bool
  CONNECT_TIMEOUT : ℚ
deriving DecidableEq

/-! ## `utils/black_white_list.py` -/

/-- The whitelist structure built by `load_whitelist`: the `patterns` and
`urls` collections (the `channels` list is irrelevant to
`is_in_whitelist`).  Python `set`s are modelled as lists; only membership
is ever consulted. -/
structure WhitelistData where
  patterns : List String
  urls : List String
deriving DecidableEq

/-- One whitelist pattern test from the loop body of `is_in_whitelist`.
`reSearch` is the oracle for `re.search(regexBody, urlLower)`: `none`
models a `re.error` (the pattern is skipped), `some b` a successful search
with result `b`.  Mirrors the order of the three branches:
wildcard `*substr*` first, then `/regex/`, then plain substring. -/
def patternMatches (reSearch : String → String → Option Bool)
    (url : String) (pattern : String) : Bool :=
  let urlLower := lowerStr url
  let patternLower := lowerStr pattern
  if startsWithS pattern "*" && endsWithS pattern "*" then
    -- pattern_clean = pattern[1:-1]  (not lower-cased in the source)
    hasSub ((pattern.toList.drop 1).dropLast.asString) urlLower
  else if startsWithS pattern "/" && endsWithS pattern "/" then
    match reSearch ((pattern.toList.drop 1).dropLast.asString) urlLower with
    | some b => b
    | none => false        -- re.error: `continue`
  else
    hasSub patternLower urlLower

/-- Model of `is_in_whitelist(url, whitelist_data, config)`.  `whitelistData = none`
models a falsy `whitelist_data` value (`not whitelist_data` in Python). -/
def is_in_whitelist (reSearch : String → String → Option Bool)
    (url : String) (whitelistData : Option WhitelistData) (config : Config) : Bool :=
  if !config.ENABLE_WHITELIST then false
  else
    match whitelistData with
    | none => false
    | some wd =>
      if url ∈ wd.urls then true
      else wd.patterns.any (patternMatches reSearch url)

/-! ## The filter decision of `main.py` (step 8, lines 400-417) -/

/-- The per-channel filtering decision of `main.py`: returns `true` when
the channel with this `url` is appended to `filtered_channels`. -/
def filter_keep (reSearch : String → String → Option Bool) (config : Config)
    (blacklist slowUrls : List String)
    (whitelistData : Option WhitelistData) (url : String) : Bool :=
  let isWhitelisted := config.ENABLE_WHITELIST &&
    is_in_whitelist reSearch url whitelistData config
  let isBlacklisted := config.ENABLE_BLACKLIST &&
    (url ∈ blacklist || url ∈ slowUrls)
  if isWhitelisted && config.WHITELIST_OVERRIDE_BLACKLIST then true
  else if !isBlacklisted then true
  else false

end AutoIPTV

namespace AutoIPTV

/-! ## `utils/speed_test.py`: `is_ipv6_url` -/

/-- The `hostname` computed at the top of `is_ipv6_url`:
`url.split('://')[1].split('/')[0]` when `'://' in url`, else
`url.split('/')[0]`. -/
def hostnameOf (url : String) : String :=
  let h := if hasSub "://" url then (pySplit "://" url).getD 1 "" else url
  (pySplit "/" h).getD 0 ""

/-- The `ip_part` computed by `is_ipv6_url` after stripping a port:
`hostname.split(']')[0][1:]` for a bracketed host, `hostname.split(':')[0]`
otherwise. -/
def ipPartOf (hostname : String) : String :=
  if hasSub ":" hostname then
    if startsWithS hostname "[" then
      (((pySplit "]" hostname).getD 0 "").toList.drop 1).asString
    else (pySplit ":" hostname).getD 0 ""
  else hostname

/-- Model of `is_ipv6_url(url)`. `ipv6Parse` is the oracle for
`ipaddress.IPv6Address(ip_part)` succeeding; on failure the function falls
back to the `ipv6`/`ip6`/`v6` substring heuristics and to counting colons. -/
def is_ipv6_url (ipv6Parse : String → Bool) (url : String) : Bool :=
  if ipv6Parse (ipPartOf (hostnameOf url)) then true
  else
    let urlLower := lowerStr url
    if hasSub "ipv6" urlLower || hasSub "ip6" urlLower || hasSub "v6" urlLower then
      true
    else countChar ':' urlLower ≥ 3

/-! ## `config/categories.py`: the category rule table

Each regex pattern of `CATEGORY_RULES` is tested with
`re.search(pattern, channel_name, re.IGNORECASE)`.  The patterns fall into
a handful of shapes, embedded by the `Pat` type below; matching is done on
the ASCII-lowered name against lowered literals.  The per-pattern
`re.error` fallback of `categorize_channel` (lines 256-259) is dead code
for this static table (every pattern compiles), so it is not modelled. -/

/-- The ten CJK numerals of the class `[一二三四五六七八九十]`. -/
def isCJKDigit (c : Char) : Bool :=
  c = '一' || c = '二' || c = '三' || c = '四' || c = '五' ||
  c = '六' || c = '七' || c = '八' || c = '九' || c = '十'

/-- The class `[\d一二三四五六七八九十]` (ASCII digits model `\d`). -/
def isDigitClass (c : Char) : Bool := c.isDigit || isCJKDigit c

/-- The class `[-\s]` used in the CCTV patterns of `CATEGORY_RULES`. -/
def isCatSep (c : Char) : Bool := c = '-' || isPyWs c

/-- Model of `$` with no `re.MULTILINE`: matches at the end of the string or just
before a trailing final newline. -/
def endsOKChars (cs : List Char) : Bool :=
  match cs with
  | [] => true
  | [c] => c = '\n'
  | _ => false

/-- Model of `^CCTV[-\s]?[\d一二三四五六七八九十]+` on a lowered char list.
The optional separator cannot steal the first digit (separator and digit
classes are disjoint), so greedy matching needs no backtracking. -/
def cctvNumMatch (cs : List Char) : Bool :=
  if ("cctv".toList).isPrefixOf cs then
    match cs.drop 4 with
    | [] => false
    | c :: rest =>
      if isCatSep c then
        match rest with
        | [] => false
        | d :: _ => isDigitClass d
      else isDigitClass c
  else false

/-- Model of `^CCTV[-\s]?lit` (optionally requiring `$` after the literal). -/
def cctvSepMatch (lit : List Char) (anchorEnd : Bool) (cs : List Char) : Bool :=
  if ("cctv".toList).isPrefixOf cs then
    let rest := cs.drop 4
    let litAt : List Char → Bool := fun l =>
      lit.isPrefixOf l && (!anchorEnd || endsOKChars (l.drop lit.length))
    (match rest with
     | c :: t => (isCatSep c && litAt t) || litAt rest
     | [] => litAt rest)
  else false

/-- Model of `^央视[一二三四五六七八九十]+`. -/
def yangshiNumMatch (cs : List Char) : Bool :=
  if ("央视".toList).isPrefixOf cs then
    match cs.drop 2 with
    | [] => false
    | d :: _ => isCJKDigit d
  else false

/-- Model of `FM[_\-\s]?\d+` searched at an arbitrary position (lowered input). -/
def fmNumMatchAt (cs : List Char) : Bool :=
  if ("fm".toList).isPrefixOf cs then
    match cs.drop 2 with
    | [] => false
    | c :: rest =>
      if isSepChar c then
        match rest with
        | [] => false
        | d :: _ => d.isDigit
      else c.isDigit
  else false

/-- The shapes of the patterns occurring in `CATEGORY_RULES`. -/
inductive Pat where
  /-- a bare literal: `re.search(lit, name)` = substring containment -/
  | substr (lit : String)
  /-- Model of `^lit` -/
  | startP (lit : String)
  /-- Model of `lit$` -/
  | endP (lit : String)
  /-- Model of `^lit$` -/
  | exactP (lit : String)
  /-- Model of `^CCTV[-\s]?[\d一二三四五六七八九十]+` -/
  | cctvNum
  /-- Model of `^央视[一二三四五六七八九十]+` -/
  | yangshiNum
  /-- Model of `^CCTV[-\s]?lit` -/
  | cctvSep (lit : String)
  /-- Model of `^CCTV[-\s]?lit$` -/
  | cctvSepEnd (lit : String)
  /-- Model of `FM[_\-\s]?\d+` -/
  | fmNum
  /-- Model of `直播中国$旅游$` — two adjacent string literals concatenated by
  Python into one pattern whose inner `$` can never match, so the pattern
  matches no string at all -/
  | never
deriving DecidableEq

/-- Model of `re.search(pat, name, re.IGNORECASE)` for the pattern shapes above.
Literal arguments are stored lower-cased; the name is lowered before
matching. -/
def Pat.search (p : Pat) (name : String) : Bool :=
  let low := lowerStr name
  let cs := low.toList
  match p with
  | substr lit => hasSub lit low
  | startP lit => startsWithS low lit
  | endP lit => endsWithS low lit || endsWithS low (lit ++ "\n")
  | exactP lit => low = lit || low = lit ++ "\n"
  | cctvNum => cctvNumMatch cs
  | yangshiNum => yangshiNumMatch cs
  | cctvSep lit => cctvSepMatch lit.toList false cs
  | cctvSepEnd lit => cctvSepMatch lit.toList true cs
  | fmNum => (List.range (cs.length + 1)).any (fun i => fmNumMatchAt (cs.drop i))
  | never => false

/-- Model of `CATEGORY_RULES`, in dict-literal order.  Note that in the source the
second entry of `"景区频道"` is the adjacent-string concatenation
`r"直播中国$" r"旅游$"`, i.e. the single unmatchable pattern
`直播中国$旅游$` (embedded as `Pat.never`); a standalone `旅游$` pattern
does not exist. -/
def CATEGORY_RULES : List (String × List Pat) := [
  ("央视", [Pat.cctvNum, Pat.yangshiNum, Pat.startP "中央电视台",
    Pat.cctvSep "4k", Pat.cctvSep "8k", Pat.cctvSep "5+",
    Pat.cctvSepEnd "综合", Pat.cctvSepEnd "财经", Pat.cctvSepEnd "综艺",
    Pat.cctvSepEnd "体育", Pat.cctvSepEnd "电影", Pat.cctvSepEnd "电视剧"]),
  ("卫视", [Pat.endP "卫视",
    Pat.exactP "北京卫视", Pat.exactP "湖南卫视", Pat.exactP "浙江卫视", Pat.exactP "江苏卫视",
    Pat.exactP "东方卫视", Pat.exactP "天津卫视", Pat.exactP "安徽卫视", Pat.exactP "山东卫视",
    Pat.exactP "广东卫视", Pat.exactP "深圳卫视", Pat.exactP "黑龙江卫视", Pat.exactP "辽宁卫视",
    Pat.exactP "湖北卫视", Pat.exactP "河南卫视", Pat.exactP "四川卫视", Pat.exactP "重庆卫视",
    Pat.exactP "江西卫视", Pat.exactP "广西卫视", Pat.exactP "东南卫视", Pat.exactP "贵州卫视",
    Pat.exactP "云南卫视", Pat.exactP "陕西卫视", Pat.exactP "山西卫视", Pat.exactP "河北卫视",
    Pat.exactP "海南卫视", Pat.exactP "宁夏卫视", Pat.exactP "新疆卫视", Pat.exactP "内蒙古卫视"]),
  ("景区频道", [Pat.endP "景区", Pat.never, Pat.endP "风光", Pat.endP "景点", Pat.endP "导视",
    Pat.startP "峨眉山", Pat.startP "九寨沟", Pat.startP "黄山", Pat.startP "泰山", Pat.startP "华山",
    Pat.startP "张家界", Pat.startP "西湖", Pat.startP "漓江", Pat.startP "鼓浪屿", Pat.startP "故宫",
    Pat.startP "长城", Pat.startP "兵马俑", Pat.startP "布达拉宫", Pat.startP "天安门", Pat.startP "外滩",
    Pat.startP "维多利亚港", Pat.startP "澳门塔", Pat.startP "日月潭", Pat.startP "阿里山", Pat.startP "黟县",
    Pat.startP "云台山", Pat.startP "雁荡山", Pat.startP "张家界"]),
  ("少儿台", [Pat.endP "少儿", Pat.endP "卡通", Pat.endP "动漫", Pat.endP "动画", Pat.substr "金鹰卡通",
    Pat.substr "卡酷少儿", Pat.substr "哈哈炫动", Pat.substr "优漫卡通", Pat.substr "嘉佳卡通",
    Pat.substr "炫动卡通", Pat.substr "宝贝"]),
  ("综艺台", [Pat.endP "综艺", Pat.endP "文艺", Pat.endP "娱乐", Pat.endP "音乐", Pat.endP "戏曲",
    Pat.endP "相声", Pat.endP "小品", Pat.endP "文化", Pat.endP "艺术"]),
  ("港澳台", [Pat.substr "凤凰", Pat.substr "翡翠", Pat.substr "明珠", Pat.substr "tvb",
    Pat.substr "atv", Pat.substr "澳视", Pat.substr "澳门", Pat.substr "香港", Pat.substr "台湾",
    Pat.substr "中天", Pat.substr "东森", Pat.substr "华视", Pat.substr "民视", Pat.substr "三立",
    Pat.substr "无线"]),
  ("体育台", [Pat.endP "体育", Pat.endP "足球", Pat.endP "篮球", Pat.substr "nba", Pat.substr "cba",
    Pat.substr "英超", Pat.endP "欧冠", Pat.endP "高尔夫", Pat.endP "网球", Pat.endP "乒羽",
    Pat.endP "搏击", Pat.endP "赛车", Pat.endP "f1", Pat.endP "奥运", Pat.endP "赛事"]),
  ("影视台", [Pat.endP "电影", Pat.endP "影院", Pat.endP "影视频道", Pat.endP "好莱坞",
    Pat.substr "chc", Pat.endP "家庭影院", Pat.endP "动作电影", Pat.endP "喜剧电影"]),
  ("调频广播", [Pat.fmNum, Pat.endP "广播", Pat.endP "电台", Pat.endP "频率",
    Pat.startP "中央人民广播电台", Pat.startP "中国之声", Pat.startP "经济之声",
    Pat.startP "音乐之声", Pat.startP "文艺之声", Pat.startP "交通广播",
    Pat.startP "都市广播", Pat.startP "新闻广播", Pat.startP "体育广播",
    Pat.startP "农村广播", Pat.startP "老年广播", Pat.startP "少儿广播",
    Pat.startP "教育广播", Pat.startP "故事广播", Pat.startP "戏曲广播",
    Pat.startP "经典音乐广播", Pat.startP "流行音乐广播", Pat.startP "欧美音乐广播",
    Pat.startP "华语音乐广播", Pat.startP "粤语广播", Pat.startP "方言广播",
    Pat.startP "国际广播", Pat.startP "外语广播", Pat.startP "英语广播",
    Pat.startP "日语广播", Pat.startP "韩语广播", Pat.startP "法语广播",
    Pat.startP "德语广播", Pat.startP "俄语广播", Pat.startP "西语广播",
    Pat.startP "阿拉伯语广播", Pat.startP "葡萄牙语广播", Pat.startP "意大利语广播"]),
  ("歌曲MV", [Pat.endP "mv", Pat.endP "音乐电视", Pat.endP "mtv", Pat.endP "歌曲",
    Pat.exactP "流行音乐", Pat.exactP "摇滚音乐", Pat.exactP "古典音乐",
    Pat.exactP "民族音乐", Pat.exactP "轻音乐", Pat.exactP "纯音乐",
    Pat.exactP "背景音乐", Pat.exactP "钢琴曲", Pat.exactP "小提琴",
    Pat.exactP "吉他", Pat.exactP "萨克斯", Pat.exactP "爵士乐",
    Pat.exactP "蓝调", Pat.exactP "乡村音乐", Pat.exactP "电子音乐",
    Pat.exactP "舞曲", Pat.exactP "dj", Pat.exactP "混音",
    Pat.exactP "原声", Pat.exactP "ost", Pat.exactP "演唱会",
    Pat.exactP "音乐会", Pat.exactP "音乐节", Pat.exactP "ktv",
    Pat.exactP "卡拉ok", Pat.exactP "伴奏", Pat.exactP "铃声",
    Pat.exactP "彩铃", Pat.exactP "手机铃声", Pat.exactP "来电铃声",
    Pat.endP "周深", Pat.endP "飞轮海", Pat.endP "精选", Pat.endP "音乐",
    Pat.endP "合集", Pat.endP "静心系列"])]

/-- Model of `PROVINCES`, in source order. -/
def PROVINCES : List String := [
  "北京市", "天津市", "河北省", "山西省", "内蒙古自治区",
  "辽宁省", "吉林省", "黑龙江省", "上海市", "江苏省",
  "浙江省", "安徽省", "福建省", "江西省", "山东省",
  "河南省", "湖北省", "湖南省", "广东省", "广西壮族自治区",
  "海南省", "重庆市", "四川省", "贵州省", "云南省",
  "西藏自治区", "陕西省", "甘肃省", "青海省", "宁夏回族自治区",
  "新疆维吾尔自治区", "台湾省", "香港", "澳门"]

/-- Model of `PROVINCE_ABBR`, in dict-literal order. -/
def PROVINCE_ABBR : List (String × String) := [
  ("北京", "北京市"), ("天津", "天津市"), ("河北", "河北省"), ("山西", "山西省"),
  ("内蒙古", "内蒙古自治区"), ("辽宁", "辽宁省"), ("吉林", "吉林省"), ("黑龙江", "黑龙江省"),
  ("上海", "上海市"), ("江苏", "江苏省"), ("浙江", "浙江省"), ("安徽", "安徽省"),
  ("福建", "福建省"), ("江西", "江西省"), ("山东", "山东省"), ("河南", "河南省"),
  ("湖北", "湖北省"), ("湖南", "湖南省"), ("广东", "广东省"), ("广西", "广西壮族自治区"),
  ("海南", "海南省"), ("重庆", "重庆市"), ("四川", "四川省"), ("贵州", "贵州省"),
  ("云南", "云南省"), ("西藏", "西藏自治区"), ("陕西", "陕西省"), ("甘肃", "甘肃省"),
  ("青海", "青海省"), ("宁夏", "宁夏回族自治区"), ("新疆", "新疆维吾尔自治区"),
  ("台湾", "台湾省"), ("香港", "香港"), ("澳门", "澳门")]

/-- Model of `categorize_channel(channel_name)`: first matching category of
`CATEGORY_RULES` in order; then the first full province name contained in
the name (plain case-sensitive `in`); then the first 2+-character
abbreviation contained in the name, mapped to its full region name;
finally `"其他台"`. -/
def categorize_channel (channelName : String) : String :=
  match CATEGORY_RULES.find? (fun r => r.2.any (fun p => p.search channelName)) with
  | some r => r.1
  | none =>
    match PROVINCES.find? (fun p => hasSub p channelName) with
    | some p => p
    | none =>
      match PROVINCE_ABBR.find? (fun a => hasSub a.1 channelName && a.1.length ≥ 2) with
      | some a => a.2
      | none => "其他台"


/-! ## `config/categories.py`: `get_source_priority`, and the merge engine
of `utils/m3u_processor.py` -/

/-- One parsed playlist entry as produced by `parse_channels` (plus the
`is_whitelist` key that whitelist-sourced channels may carry, read with
`channel.get('is_whitelist', False)`).  The `extinf_line` field is raw
input text never consulted by the merge, and is omitted. -/
structure Entry where
  original_name : String
  clean_name : String
  url : String
  quality : String
  source : String
  logo : Option String
  is_whitelist : Bool
deriving DecidableEq

/-- One source dict built inside `merge_channels`.  The `test_details`
field (the raw per-URL result dict) is carried verbatim and never read by
`get_source_priority` or the sort, and is omitted from the model. -/
structure Source where
  url : String
  quality : String
  source : String
  logo : Option String
  priority : Int
  is_ipv6 : Bool
  is_whitelist : Bool
  speed_score : ℚ
deriving DecidableEq

/-- One merged logical channel.  `categories`, a Python `set`, is modelled
as a duplicate-free list in insertion order (only membership and
enumeration are used; see `merge_categories_singleton` for why the
enumeration order is irrelevant here).  The `first_seen` entry is stored
and never read downstream of the merge. -/
structure MChannel where
  clean_name : String
  original_names : List String
  sources : List Source
  logos : List String
  categories : List String
  category : String
  first_seen : Entry
deriving DecidableEq

/-- The quality bonus table of `get_source_priority`
(`quality_scores.get(quality, 0)`). -/
def qualityScore (q : String) : Int :=
  if q = "4K" then 40
  else if q = "高清" then 30
  else if q = "标清" then 20
  else if q = "流畅" then 10
  else if q = "未知" then 0
  else 0

/-- Model of `get_source_priority(source_info)`.  The function reads the global
config (`load_config()`), passed here explicitly.  The
`'speed_score' in source_info` test is always true for sources built by
`merge_channels` (the key is set unconditionally), so only the
`ENABLE_SPEED_TEST` flag is modelled. -/
def get_source_priority (config : Config) (s : Source) : Int :=
  let p1 : Int := if s.is_ipv6 then 100 else 0
  let p2 : Int :=
    if config.ENABLE_SPEED_TEST then
      if s.speed_score ≥ 9/10 then 50
      else if s.speed_score ≥ 7/10 then 30
      else if s.speed_score ≥ 1/2 then 10
      else 0
    else 0
  let p3 : Int := qualityScore s.quality
  let urlLower := lowerStr s.url
  let p4 : Int :=
    if hasSub "cdn" urlLower || hasSub "akamai" urlLower || hasSub "cloudfront" urlLower
    then 5 else 0
  let p5 : Int := if hasSub "https://" urlLower then 3 else 0
  let p6 : Int := if hasSub "m3u8" urlLower then 2 else 0
  let p7 : Int := if s.is_whitelist then 80 else 0
  p1 + p2 + p3 + p4 + p5 + p6 + p7

/-- The per-URL speed score consulted by `merge_channels`:
`speed_test_results.get(url, {}).get('score', 0.0)` when results were
passed, `0.0` otherwise.  Only the `'score'` field of a result dict is
read, so results are modelled as a url-to-score association list. -/
def speedScoreOf (speedResults : Option (List (String × ℚ))) (url : String) : ℚ :=
  match speedResults with
  | none => 0
  | some m =>
    match m.find? (fun kv => kv.1 = url) with
    | some kv => kv.2
    | none => 0

/-- The source dict built (twice, identically) inside `merge_channels`. -/
def mkSource (ipv6Parse : String → Bool)
    (speedResults : Option (List (String × ℚ))) (e : Entry) : Source :=
  { url := e.url
    quality := e.quality
    source := e.source
    logo := e.logo
    priority := 0
    is_ipv6 := is_ipv6_url ipv6Parse e.url
    is_whitelist := e.is_whitelist
    speed_score := speedScoreOf speedResults e.url }

/-- Truthiness of `channel['logo']` (`None` and `''` are falsy). -/
def logoTruthy (l : Option String) : Bool :=
  match l with
  | none => false
  | some s => s ≠ ""

/-- Model of `set.add` on the insertion-ordered duplicate-free list modelling the
`categories` set. -/
def addCategory (cs : List String) (c : String) : List String :=
  if c ∈ cs then cs else cs ++ [c]

/-- The `key not in merged` branch of `merge_channels`: a fresh merged
channel for entry `e`. -/
def newMChannel (ipv6Parse : String → Bool)
    (speedResults : Option (List (String × ℚ))) (e : Entry) : MChannel :=
  { clean_name := e.clean_name
    original_names := [e.original_name]
    sources := [mkSource ipv6Parse speedResults e]
    logos := if logoTruthy e.logo then [e.logo.getD ""] else []
    categories := addCategory [] (categorize_channel e.clean_name)
    category := "其他台"
    first_seen := e }

/-- The `key in merged` branch of `merge_channels`: fold entry `e` into
the existing channel `ch`. -/
def foldIntoChannel (ipv6Parse : String → Bool)
    (speedResults : Option (List (String × ℚ))) (ch : MChannel) (e : Entry) : MChannel :=
  let sources :=
    if e.url ∈ ch.sources.map (fun s => s.url) then ch.sources
    else ch.sources ++ [mkSource ipv6Parse speedResults e]
  let logos :=
    if logoTruthy e.logo && (e.logo.getD "") ∉ ch.logos then ch.logos ++ [e.logo.getD ""]
    else ch.logos
  { ch with
    original_names := ch.original_names ++ [e.original_name]
    sources := sources
    logos := logos
    categories := addCategory ch.categories (categorize_channel e.clean_name) }

/-- One iteration of the entry loop of `merge_channels`.  The `merged`
dict (keyed by `clean_name`, insertion-ordered) is modelled as a list of
channels with pairwise-distinct `clean_name`s. -/
def mergeStep (ipv6Parse : String → Bool)
    (speedResults : Option (List (String × ℚ)))
    (m : List MChannel) (e : Entry) : List MChannel :=
  if m.any (fun ch => ch.clean_name = e.clean_name) then
    m.map (fun ch =>
      if ch.clean_name = e.clean_name then foldIntoChannel ipv6Parse speedResults ch e
      else ch)
  else
    m ++ [newMChannel ipv6Parse speedResults e]

/-- Insert a source into a priority-descending list, after every source
of priority `≥` its own — together with `sortSourcesDesc` this is exactly
a stable descending sort, the behaviour of Python's
`sources.sort(key=lambda x: x['priority'], reverse=True)`. -/
def insertByPriority (s : Source) : List Source → List Source
  | [] => [s]
  | t :: ts => if s.priority > t.priority then s :: t :: ts else t :: insertByPriority s ts

/-- Stable descending sort by `priority`. -/
def sortSourcesDesc (l : List Source) : List Source :=
  l.foldl (fun acc s => insertByPriority s acc) []

/-- The final per-channel pass of `merge_channels`: compute every source's
priority, sort the sources by priority descending (stable), and resolve
the single category: the first non-`"其他台"` label of the enumerated
category set if any, else `"其他台"`.  (`list(set)` enumerates the Python
set in an unspecified order; the model enumerates the insertion-ordered
list.  By `merge_categories_singleton` the set is always a singleton here,
so every enumeration order yields the same result.) -/
def finalizeChannel (config : Config) (ch : MChannel) : MChannel :=
  let withPriority := ch.sources.map (fun s => { s with priority := get_source_priority config s })
  let sorted := sortSourcesDesc withPriority
  let category :=
    match ch.categories.filter (fun c => c ≠ "其他台") with
    | [] => "其他台"
    | c :: _ => c
  { ch with sources := sorted, category := category }

/-- Model of `merge_channels(all_channels, speed_test_results)`.  The returned
Python dict keyed by `clean_name` is modelled as the insertion-ordered
list of its values (the keys are recoverable as `ch.clean_name`). -/
def merge_channels (config : Config) (ipv6Parse : String → Bool)
    (speedResults : Option (List (String × ℚ)))
    (allChannels : List Entry) : List MChannel :=
  (allChannels.foldl (mergeStep ipv6Parse speedResults) []).map (finalizeChannel config)

/-! ## `utils/speed_test.py`: probe result shaping

The HTTP side effects of `test_m3u8_stream` / `test_url_speed` are
modelled as explicit "world" inputs describing how the network behaved;
the functions below reproduce how the code turns that behaviour into its
result dicts.  Wall-clock-only fields (`test_time`) are omitted. -/

/-- The `test_results` dict of `test_m3u8_stream`.  Fields start as
`None`/`False`/`''`/`0` and are (partially) filled in. -/
structure TestResults where
  connect_time : Option ℚ
  response_time : Option ℚ
  success : Bool
  error : Option String
  content_type : Option String
  content_length : Int
deriving DecidableEq

/-- How the network behaved for one `test_m3u8_stream` probe: either the
GET raised (the four `except` arms), or it returned a response with a
status, headers, and a stream of chunk sizes.  `timeoutTrip` is the chunk
index (if any) at which the `time.time() - start_partial > timeout` guard
fires. -/
inductive StreamWorld where
  | timeoutExc
  | connError (msg : String)
  | tooManyRedirects
  | otherExc (msg : String)
  | responded (status : Nat) (ctype : String) (clen : Int)
      (connectTime responseTime : ℚ) (chunks : List Nat) (timeoutTrip : Option Nat)
deriving DecidableEq

/-- The `iter_content` read loop: accumulate chunk lengths; succeed when
at least 1024 bytes have been read; stop early when the timeout guard
fires. -/
def readLoop (chunks : List Nat) (timeoutTrip : Option Nat) : Bool :=
  go chunks 0 0
where
  go : List Nat → Nat → Nat → Bool
    | [], _, _ => false
    | c :: cs, i, acc =>
      let acc' := acc + c
      if acc' ≥ 1024 then true
      else if timeoutTrip = some i then false
      else go cs (i + 1) acc'

/-- Model of `test_m3u8_stream(url, config)` as a function of the network
behaviour.  (The preliminary HEAD request is wrapped in its own
`try/except pass` and its outcome never reaches `test_results`, so it is
not modelled.) -/
def test_m3u8_stream (w : StreamWorld) : TestResults :=
  match w with
  | StreamWorld.timeoutExc =>
    { connect_time := none, response_time := none, success := false,
      error := some "连接超时", content_type := none, content_length := 0 }
  | StreamWorld.connError msg =>
    { connect_time := none, response_time := none, success := false,
      error := some ("连接错误: " ++ msg), content_type := none, content_length := 0 }
  | StreamWorld.tooManyRedirects =>
    { connect_time := none, response_time := none, success := false,
      error := some "重定向过多", content_type := none, content_length := 0 }
  | StreamWorld.otherExc msg =>
    { connect_time := none, response_time := none, success := false,
      error := some ("其他错误: " ++ msg), content_type := none, content_length := 0 }
  | StreamWorld.responded status ctype clen ct rt chunks trip =>
    let base : TestResults :=
      { connect_time := some ct, response_time := some rt, success := false,
        error := none, content_type := some ctype, content_length := clen }
    if status = 200 || status = 206 then
      { base with success := readLoop chunks trip }
    else
      { base with error := some ("HTTP " ++ toString status) }

/-- Model of `calculate_speed_score(test_results, url, config)`: 0.0 on failure,
otherwise the weighted sum of connection, response and content scores,
plus the IPv6 bonus, clamped to `[0, 1]`. -/
def calculate_speed_score (ipv6Parse : String → Bool) (config : Config)
    (tr : TestResults) (url : String) : ℚ :=
  if !tr.success then 0
  else
    let s1 : ℚ :=
      match tr.connect_time with
      | some ct => (1 - min (ct / (config.CONNECT_TIMEOUT * 2)) 1) * (3/10)
      | none => 0
    let s2 : ℚ :=
      match tr.response_time with
      | some rt => (1 - min (rt / 4) 1) * (3/10)
      | none => 0
    let ctypeLower := lowerStr (tr.content_type.getD "")
    let c1 : ℚ :=
      if hasSub "video" ctypeLower || hasSub "mpegurl" ctypeLower || hasSub "m3u8" ctypeLower
      then 1/2 else 0
    let c2 : ℚ := if tr.content_length > 0 then 3/10 else 0
    let urlLower := lowerStr url
    let c3 : ℚ := if hasSub "m3u8" urlLower || hasSub "ts" urlLower then 1/5 else 0
    let s3 : ℚ := (c1 + c2 + c3) * (2/5)
    let s4 : ℚ := if is_ipv6_url ipv6Parse url then 1/5 else 0
    min (max (s1 + s2 + s3 + s4) 0) 1

/-- How the network behaved for the simple (non-M3U8) probe of
`test_url_speed`: the HEAD request either raised or returned a status
after `responseTime` seconds. -/
inductive SimpleWorld where
  | exc (msg : String)
  | responded (status : Nat) (responseTime : ℚ)
deriving DecidableEq

/-- The result dict returned by `test_url_speed` (wall-clock `test_time`
omitted). -/
structure SpeedResult where
  score : ℚ
  success : Bool
  connect_time : Option ℚ
  response_time : Option ℚ
  error : Option String
  is_ipv6 : Bool
deriving DecidableEq

/-- Is `url` routed to the M3U8 stream test?
(`url.lower().endswith('.m3u8') or '.m3u8?' in url.lower()`). -/
def isM3u8Probe (url : String) : Bool :=
  endsWithS (lowerStr url) ".m3u8" || hasSub ".m3u8?" (lowerStr url)

/-- Model of `test_url_speed(url, config)` as a function of the network behaviour
(`mw` feeds the M3U8 branch, `sw` the simple branch; only the branch
selected by the URL shape is consulted). -/
def test_url_speed (ipv6Parse : String → Bool) (config : Config) (url : String)
    (mw : StreamWorld) (sw : SimpleWorld) : SpeedResult :=
  if isM3u8Probe url then
    let tr := test_m3u8_stream mw
    { score := calculate_speed_score ipv6Parse config tr url
      success := tr.success
      connect_time := tr.connect_time
      response_time := tr.response_time
      error := tr.error
      is_ipv6 := is_ipv6_url ipv6Parse url }
  else
    match sw with
    | SimpleWorld.exc msg =>
      { score := 0, success := false, connect_time := none, response_time := none,
        error := some msg, is_ipv6 := is_ipv6_url ipv6Parse url }
    | SimpleWorld.responded status rt =>
      if status < 400 then
        let base : ℚ := 7/10 - min (rt / 5) (7/10)
        let score := if is_ipv6_url ipv6Parse url then base + 1/5 else base
        { score := score, success := true, connect_time := some rt,
          response_time := some rt, error := none,
          is_ipv6 := is_ipv6_url ipv6Parse url }
      else
        { score := 0, success := false, connect_time := none, response_time := none,
          error := some ("HTTP " ++ toString status), is_ipv6 := is_ipv6_url ipv6Parse url }

/-! ## `utils/channel_cleaner.py`

The cleaning rules are a fixed list of `re.sub` calls.  Each pattern is
one of a handful of shapes; each shape is embedded as a matcher function
`List Char → Option (List Char × List Char)` returning, on a match
starting at the head of the input, the replacement text and the input
remaining after the match.  `pySub` is the `re.sub` scan: leftmost match,
emit replacement, continue after the match (replacements are never
rescanned).  Every matcher below consumes at least one character, so
`fuel = length input` never runs out.  Greedy quantifiers in these
patterns never need backtracking (each quantified class is disjoint from
the text that follows it), except where noted in the bespoke matchers. -/

/-- Drop a lower-cased literal from the head of the input, comparing
case-insensitively (`re.IGNORECASE`). -/
def dropLitCI : List Char → List Char → Option (List Char)
  | [], cs => some cs
  | _ :: _, [] => none
  | l :: ls, c :: cs => if c.toLower = l then dropLitCI ls cs else none

/-- Drop a literal from the head of the input, case-sensitively. -/
def dropLitCS : List Char → List Char → Option (List Char)
  | [], cs => some cs
  | _ :: _, [] => none
  | l :: ls, c :: cs => if c = l then dropLitCS ls cs else none

/-- The `re.sub` scan driver (see section comment). -/
def pySub (m : List Char → Option (List Char × List Char)) :
    Nat → List Char → List Char
  | 0, cs => cs
  | _ + 1, [] => []
  | n + 1, c :: rest =>
    match m (c :: rest) with
    | some (repl, after) => repl ++ pySub m n after
    | none => c :: pySub m n rest

/-- Run one `re.sub` rule over a whole string. -/
def runRule (m : List Char → Option (List Char × List Char))
    (cs : List Char) : List Char :=
  pySub m (cs.length + 1) cs

/-- Model of `lit` → `repl`, matched case-insensitively (`HEVC`, `AAC`, `AC3`, and
the `cctv` → `CCTV` normalization). -/
def mLitCI (lit repl : List Char) (cs : List Char) : Option (List Char × List Char) :=
  match dropLitCI lit cs with
  | some rest => some (repl, rest)
  | none => none

/-- Model of `{num}` → `num`, matched case-sensitively (Python `str.replace`). -/
def mLitCS (lit repl : List Char) (cs : List Char) : Option (List Char × List Char) :=
  match dropLitCS lit cs with
  | some rest => some (repl, rest)
  | none => none

/-- Model of `50\s*FPS` → `''`. -/
def m50fps (cs : List Char) : Option (List Char × List Char) :=
  match dropLitCI "50".toList cs with
  | none => none
  | some r1 =>
    match dropLitCI "fps".toList (r1.dropWhile isPyWs) with
    | some r2 => some ([], r2)
    | none => none

/-- Model of `H\.?264` / `H\.?265` → `''` (the optional dot is greedy). -/
def mHDot (digits : List Char) (cs : List Char) : Option (List Char × List Char) :=
  match dropLitCI "h".toList cs with
  | none => none
  | some r1 =>
    match r1 with
    | '.' :: r2 =>
      match dropLitCI digits r2 with
      | some r3 => some ([], r3)
      | none =>
        match dropLitCI digits r1 with
        | some r3 => some ([], r3)
        | none => none
    | _ =>
      match dropLitCI digits r1 with
      | some r3 => some ([], r3)
      | none => none

/-- Model of `[\[\(][^\]\)]*[\]\)]` → `''`: an ASCII opening bracket, a maximal run
of non-closers, a closer.  (The negated class excludes both closers, so
the greedy run needs no backtracking.) -/
def mBrackets (cs : List Char) : Option (List Char × List Char) :=
  match cs with
  | c :: rest =>
    if c = '[' || c = '(' then
      let inner := rest.dropWhile (fun d => !(d = ']' || d = ')'))
      match inner with
      | d :: r2 => if d = ']' || d = ')' then some ([], r2) else none
      | [] => none
    else none
  | [] => none

/-- Model of `【[^】]*】` → `''`. -/
def mCJKBracket (cs : List Char) : Option (List Char × List Char) :=
  match cs with
  | c :: rest =>
    if c = '【' then
      match rest.dropWhile (fun d => d ≠ '】') with
      | d :: r2 => if d = '】' then some ([], r2) else none
      | [] => none
    else none
  | [] => none

/-- After the leading optional separator: the (lower-cased) literal, an
optional `p`/`P` (for `1080[Pp]?` / `720[Pp]?`), an optional trailing
separator. -/
def sepTokTail (lit : List Char) (optP : Bool) (cs : List Char) : Option (List Char) :=
  match dropLitCI lit cs with
  | none => none
  | some r1 =>
    let r2 := if optP then
      match r1 with
      | c :: t => if c.toLower = 'p' then t else r1
      | [] => r1
      else r1
    let r3 := match r2 with
      | c :: t => if isSepChar c then t else r2
      | [] => r2
    some r3

/-- Model of `[_\-\s]?LIT[Pp]?[_\-\s]?` → `' '` (the quality/protocol-token
rules).  The leading optional separator is greedy: a separator at the
head is tried first, and since no literal starts with a separator
character the no-separator fallback is exactly `sepTokTail` on the
unconsumed input. -/
def mSepTok (lit : List Char) (optP : Bool) (cs : List Char) :
    Option (List Char × List Char) :=
  match cs with
  | c :: t =>
    if isSepChar c then
      match sepTokTail lit optP t with
      | some r => some ([' '], r)
      | none =>
        match sepTokTail lit optP cs with
        | some r => some ([' '], r)
        | none => none
    else
      match sepTokTail lit optP cs with
      | some r => some ([' '], r)
      | none => none
  | [] => none

/-- Model of `\s+LIT$` → `repl` (the redundant-word suffix rules).  `\s+` greedily
takes the maximal whitespace run (the literals start with non-whitespace);
`$` matches at the end of input or before one final newline. -/
def mSuffix (lit repl : List Char) (cs : List Char) : Option (List Char × List Char) :=
  match cs with
  | c :: _ =>
    if isPyWs c then
      match dropLitCS lit (cs.dropWhile isPyWs) with
      | some r => if endsOKChars r then some (repl, r) else none
      | none => none
    else none
  | [] => none

/-- Model of `\s+` → `' '`. -/
def mWsRun (cs : List Char) : Option (List Char × List Char) :=
  match cs with
  | c :: _ =>
    if isPyWs c then some ([' '], cs.dropWhile isPyWs) else none
  | [] => none

/-- Model of `[_\-\|]+` → `' '`. -/
def isBarSep (c : Char) : Bool := c = '_' || c = '-' || c = '|'

/-- Model of `[_\-\|]+` → `' '`. -/
def mBarRun (cs : List Char) : Option (List Char × List Char) :=
  match cs with
  | c :: _ =>
    if isBarSep c then some ([' '], cs.dropWhile isBarSep) else none
  | [] => none

/-- Model of `\s*&\s*` → `' '`: optional whitespace, `&`, optional whitespace. -/
def mAmp (cs : List Char) : Option (List Char × List Char) :=
  match cs.dropWhile isPyWs with
  | '&' :: r => some ([' '], r.dropWhile isPyWs)
  | _ => none

/-- Model of `re.sub(r'^\s+|\s+$', '', s)`: the `^`-anchored branch strips the
leading whitespace run; the `$`-anchored branch can only match a
whitespace run that reaches the end of the string (a shorter run would
have to end before a non-final character, where `$` cannot match), i.e.
the maximal trailing run. -/
def rule_stripEdges (cs : List Char) : List Char :=
  ((cs.dropWhile isPyWs).reverse.dropWhile isPyWs).reverse

/-- Python word characters (`\w`, Unicode mode): ASCII letters, digits,
underscore, and — as a model of "Unicode letters and digits" — every
non-ASCII character.  (All the non-ASCII text this rule can see is CJK
ideographs, which are word characters in Python.) -/
def isWordChar (c : Char) : Bool :=
  c.isAlphanum || c = '_' || 128 ≤ c.toNat

/-- Count the repetitions of `(?:\s+\1)+`: each repetition is a maximal
nonempty whitespace run followed by the exact captured word `w`
(case-sensitive; the rule is applied without `re.IGNORECASE`).  Returns
the count and the input after the last full repetition.  Each repetition
consumes at least two characters, so `fuel = length input` suffices. -/
def repLoop (w : List Char) : Nat → List Char → Nat × List Char
  | 0, cs => (0, cs)
  | n + 1, cs =>
    let ws := cs.takeWhile isPyWs
    if ws.length ≥ 1 then
      match dropLitCS w (cs.drop ws.length) with
      | some r =>
        let p := repLoop w n r
        (p.1 + 1, p.2)
      | none => (0, cs)
    else (0, cs)

/-- Advance past exactly `j` repetitions of `\s+` + `w` (used when the
final `\b` forces giving one repetition back). -/
def repAdvance (w : List Char) : Nat → List Char → List Char
  | 0, cs => cs
  | j + 1, cs =>
    match dropLitCS w (cs.drop (cs.takeWhile isPyWs).length) with
    | some r => repAdvance w j r
    | none => cs

/-- Try to match `\b(\w+)(?:\s+\1)+\b` at the head of `cs` (the caller
guarantees the head is a word character preceded by a boundary).
`(\w+)` must be the maximal word run (a shorter capture is followed by a
word character, where `\s+` cannot match).  The trailing `\b` holds after
the `k`-th repetition iff the next character is a non-word character or
the end; if it fails and `k ≥ 2`, backtracking drops one repetition,
after which the next character is whitespace and the boundary holds. -/
def dedupMatchAt (cs : List Char) : Option (List Char × List Char) :=
  let w := cs.takeWhile isWordChar
  let after := cs.drop w.length
  let p := repLoop w after.length after
  if p.1 = 0 then none
  else if (match p.2 with
           | [] => true
           | c :: _ => !isWordChar c) then some (w, p.2)
  else if p.1 ≥ 2 then some (w, repAdvance w (p.1 - 1) after)
  else none

/-- The scan of `re.sub(r'\b(\w+)(?:\s+\1)+\b', r'\1', name)`, carrying
the previous character of the *original* string for the leading `\b`
test.  A match is replaced by its captured word and the scan continues
after the match (whose last character is the last character of `w`). -/
def dedupScan : Nat → Option Char → List Char → List Char
  | 0, _, cs => cs
  | _ + 1, _, [] => []
  | n + 1, prev, c :: rest =>
    if isWordChar c && (match prev with
                        | none => true
                        | some p => !isWordChar p) then
      match dedupMatchAt (c :: rest) with
      | some (w, after) => w ++ dedupScan n (some (w.getLastD c)) after
      | none => c :: dedupScan n (some c) rest
    else c :: dedupScan n (some c) rest

/-- Model of `re.sub(r'\b(\w+)(?:\s+\1)+\b', r'\1', name)` — collapse
immediately-repeated whole words. -/
def rule_dedup (cs : List Char) : List Char :=
  dedupScan (cs.length + 1) none cs

/-- The 29 substitutions of `CLEAN_RULES`, applied in list order with
`flags=re.IGNORECASE` (the CJK literals are unaffected by case folding,
so `dropLitCS` on them agrees with the flag). -/
def applyCleanRules (cs : List Char) : List Char :=
  let r := runRule m50fps cs
  let r := runRule (mLitCI "hevc".toList []) r
  let r := runRule (mHDot "264".toList) r
  let r := runRule (mHDot "265".toList) r
  let r := runRule (mLitCI "aac".toList []) r
  let r := runRule (mLitCI "ac3".toList []) r
  let r := runRule mBrackets r
  let r := runRule mCJKBracket r
  let r := runRule (mSepTok "4k".toList false) r
  let r := runRule (mSepTok "高清".toList false) r
  let r := runRule (mSepTok "hd".toList false) r
  let r := runRule (mSepTok "超清".toList false) r
  let r := runRule (mSepTok "标清".toList false) r
  let r := runRule (mSepTok "流畅".toList false) r
  let r := runRule (mSepTok "1080".toList true) r
  let r := runRule (mSepTok "720".toList true) r
  let r := runRule (mSepTok "ipv6".toList false) r
  let r := runRule (mSepTok "ipv4".toList false) r
  let r := runRule (mSepTok "hls".toList false) r
  let r := runRule (mSepTok "rtmp".toList false) r
  let r := runRule (mSepTok "rtsp".toList false) r
  let r := runRule (mSepTok "flv".toList false) r
  let r := runRule (mSuffix "直播".toList []) r
  let r := runRule (mSuffix "频道".toList []) r
  let r := runRule (mSuffix "台".toList []) r
  let r := runRule (mSuffix "电视台".toList []) r
  let r := runRule (mSuffix "卫视台".toList "卫视".toList) r
  let r := runRule mWsRun r
  let r := rule_stripEdges r
  let r := runRule mBarRun r
  runRule mAmp r

/-! ### `standardize_cctv_name` -/

/-- Model of `CHINESE_NUMBERS`. -/
def CHINESE_NUMBERS : List (String × String) := [
  ("一", "1"), ("二", "2"), ("三", "3"), ("四", "4"), ("五", "5"),
  ("六", "6"), ("七", "7"), ("八", "8"), ("九", "9"), ("十", "10"),
  ("十一", "11"), ("十二", "12"), ("十三", "13"), ("十四", "14"), ("十五", "15"),
  ("十六", "16"), ("十七", "17")]

/-- Model of `chinese_to_arabic(chinese_num)`: full-string table lookup, identity
on anything else. -/
def chinese_to_arabic (s : String) : String :=
  match CHINESE_NUMBERS.find? (fun kv => kv.1 = s) with
  | some kv => kv.2
  | none => s

/-- The pattern shapes of `CCTV_MAPPING` (each is `re.match`ed with
`re.IGNORECASE`; every pattern is `^…$`-anchored). -/
inductive MapPat where
  /-- Model of `^CCTV[_\-\s]?lit$` -/
  | sepLit (lit : String)
  /-- Model of `^CCTV[一二三四五六七八九十]$` -/
  | cctvCJK
  /-- Model of `^央视[一二三四五六七八九十]$` -/
  | ysCJK
  /-- Model of `^中央电视台[一二三四五六七八九十]?$` -/
  | zhongyang
  /-- Model of `^CCTVlit$` (the 4K / 8K entries) -/
  | plainLit (lit : String)
deriving DecidableEq

/-- Anchored match of a `MapPat` against the (lowered) name. -/
def MapPat.matches (p : MapPat) (name : String) : Bool :=
  let cs := lowerChars name.toList
  match p with
  | sepLit lit =>
    (match dropLitCS "cctv".toList cs with
     | none => false
     | some r =>
       let tryAt : List Char → Bool := fun l =>
         match dropLitCS lit.toList l with
         | some r2 => endsOKChars r2
         | none => false
       (match r with
        | c :: t => (isSepChar c && tryAt t) || tryAt r
        | [] => tryAt r))
  | cctvCJK =>
    (match dropLitCS "cctv".toList cs with
     | some [d] => isCJKDigit d
     | some [d, n] => isCJKDigit d && n = '\n'
     | _ => false)
  | ysCJK =>
    (match dropLitCS "央视".toList cs with
     | some [d] => isCJKDigit d
     | some [d, n] => isCJKDigit d && n = '\n'
     | _ => false)
  | zhongyang =>
    (match dropLitCS "中央电视台".toList cs with
     | none => false
     | some r =>
       (match r with
        | [] => true
        | d :: t => (isCJKDigit d && endsOKChars t) || endsOKChars r))
  | plainLit lit =>
    (match dropLitCS ("cctv" ++ lit).toList cs with
     | some r2 => endsOKChars r2
     | none => false)

/-- Model of `CCTV_MAPPING`, in dict-literal order. -/
def CCTV_MAPPING : List (MapPat × String) := [
  (MapPat.sepLit "1", "CCTV-1 综合"), (MapPat.sepLit "2", "CCTV-2 财经"),
  (MapPat.sepLit "3", "CCTV-3 综艺"), (MapPat.sepLit "4", "CCTV-4 中文国际"),
  (MapPat.sepLit "5", "CCTV-5 体育"), (MapPat.sepLit "5+", "CCTV-5+ 体育赛事"),
  (MapPat.sepLit "6", "CCTV-6 电影"), (MapPat.sepLit "7", "CCTV-7 国防军事"),
  (MapPat.sepLit "8", "CCTV-8 电视剧"), (MapPat.sepLit "9", "CCTV-9 纪录"),
  (MapPat.sepLit "10", "CCTV-10 科教"), (MapPat.sepLit "11", "CCTV-11 戏曲"),
  (MapPat.sepLit "12", "CCTV-12 社会与法"), (MapPat.sepLit "13", "CCTV-13 新闻"),
  (MapPat.sepLit "14", "CCTV-14 少儿"), (MapPat.sepLit "15", "CCTV-15 音乐"),
  (MapPat.sepLit "16", "CCTV-16 奥林匹克"), (MapPat.sepLit "17", "CCTV-17 农业农村"),
  (MapPat.cctvCJK, "CCTV-{num}"), (MapPat.ysCJK, "CCTV-{num}"),
  (MapPat.zhongyang, "CCTV-1 综合"),
  (MapPat.plainLit "4k", "CCTV-4K 超高清"), (MapPat.plainLit "8k", "CCTV-8K 超高清"),
  (MapPat.sepLit "高清", "CCTV-高清"),
  (MapPat.sepLit "戏曲", "CCTV-11 戏曲"), (MapPat.sepLit "音乐", "CCTV-15 音乐"),
  (MapPat.sepLit "少儿", "CCTV-14 少儿"), (MapPat.sepLit "新闻", "CCTV-13 新闻"),
  (MapPat.sepLit "纪录", "CCTV-9 纪录"), (MapPat.sepLit "体育", "CCTV-5 体育"),
  (MapPat.sepLit "电影", "CCTV-6 电影"), (MapPat.sepLit "电视剧", "CCTV-8 电视剧"),
  (MapPat.sepLit "综艺", "CCTV-3 综艺"), (MapPat.sepLit "财经", "CCTV-2 财经")]

/-- Model of `re.search(r'[\d一二三四五六七八九十]+', name)`: the first maximal
run of digit-class characters. -/
def firstDigitRun : List Char → Option (List Char)
  | [] => none
  | c :: rest =>
    if isDigitClass c then some ((c :: rest).takeWhile isDigitClass)
    else firstDigitRun rest

/-- Apply a `CCTV_MAPPING` replacement: substitute `{num}` (if present in
the replacement) by the arabic form of the first digit run of the name. -/
def applyMapping (repl : String) (name : String) : String :=
  if hasSub "{num}" repl then
    match firstDigitRun name.toList with
    | some run =>
      (runRule (mLitCS "{num}".toList (chinese_to_arabic run.asString).toList)
        repl.toList).asString
    | none => repl
  else repl

/-- Model of `(.+)$` on the text after the `\s+` of the optional suffix group:
`.` matches anything but `'\n'`, so a valid body is nonempty and contains
no newline, except that `$` tolerates one final newline (excluded from
the capture). -/
def bodyCapture (body : List Char) : Option (List Char) :=
  if body = [] then none
  else if '\n' ∈ body then
    let b := body.dropLast
    if body.getLastD ' ' = '\n' && b ≠ [] && !('\n' ∈ b) then some b else none
  else some body

/-- Greedy split of the optional group `(?:\s+(.+))?$`: with `W` the
maximal whitespace run after the digits, try giving `\s+` first `W`
characters, then `W-1`, …, then `1`; the first split whose remainder is a
valid `(.+)$` body wins. -/
def tryWsSplits (r2 : List Char) : Nat → Option (List Char)
  | 0 => none
  | s + 1 =>
    match bodyCapture (r2.drop (s + 1)) with
    | some b => some b
    | none => tryWsSplits r2 s

/-- Model of `re.match(r'^CCTV[_\-\s]?([\d一二三四五六七八九十]+)(?:\s+(.+))?$',
name, re.IGNORECASE)`: returns the two captures on a match.  The optional
separator cannot steal a digit (disjoint classes) and the digit run is
maximal (a shorter capture is followed by a digit where neither `\s` nor
`$` can match). -/
def cctvNumRegex (name : String) : Option (String × Option String) :=
  match dropLitCI "cctv".toList name.toList with
  | none => none
  | some r0 =>
    let r1 := match r0 with
      | c :: t => if isSepChar c then t else r0
      | [] => r0
    let digits := r1.takeWhile isDigitClass
    if digits = [] then none
    else
      let r2 := r1.drop digits.length
      match tryWsSplits r2 (r2.takeWhile isPyWs).length with
      | some sfx => some (digits.asString, some sfx.asString)
      | none =>
        if endsOKChars r2 then some (digits.asString, none) else none

/-- Model of `re.match(r'^央视([一二三四五六七八九十]+)(?:\s+(.+))?$', name)`. -/
def ysRegex (name : String) : Option (String × Option String) :=
  match dropLitCS "央视".toList name.toList with
  | none => none
  | some r1 =>
    let digits := r1.takeWhile isCJKDigit
    if digits = [] then none
    else
      let r2 := r1.drop digits.length
      match tryWsSplits r2 (r2.takeWhile isPyWs).length with
      | some sfx => some (digits.asString, some sfx.asString)
      | none =>
        if endsOKChars r2 then some (digits.asString, none) else none

/-- The `cctv_names` dict inside `standardize_cctv_name`. -/
def cctv_names : List (String × String) := [
  ("1", "综合"), ("2", "财经"), ("3", "综艺"), ("4", "中文国际"),
  ("5", "体育"), ("5+", "体育赛事"), ("6", "电影"), ("7", "国防军事"),
  ("8", "电视剧"), ("9", "纪录"), ("10", "科教"), ("11", "戏曲"),
  ("12", "社会与法"), ("13", "新闻"), ("14", "少儿"), ("15", "音乐"),
  ("16", "奥林匹克"), ("17", "农业农村")]

/-- Model of `standardize_cctv_name(name)`.  On no match of any branch the
function returns `original_name`, the *argument* (before the
`cctv` → `CCTV` normalization). -/
def standardize_cctv_name (name : String) : String :=
  let name1 :=
    if hasSub "cctv" (lowerStr name) then
      (runRule (mLitCI "cctv".toList "CCTV".toList) name.toList).asString
    else name
  match CCTV_MAPPING.find? (fun m => m.1.matches name1) with
  | some m => applyMapping m.2 name1
  | none =>
    match cctvNumRegex name1 with
    | some (g1, sfx) =>
      let num := chinese_to_arabic g1
      (match cctv_names.find? (fun kv => kv.1 = num) with
       | some kv => "CCTV-" ++ num ++ " " ++ kv.2
       | none =>
         let s := sfx.getD ""
         if s ≠ "" then "CCTV-" ++ num ++ " " ++ s
         else "CCTV-" ++ num)
    | none =>
      if startsWithS name1 "央视" then
        match ysRegex name1 with
        | some (g1, sfx) => "CCTV-" ++ chinese_to_arabic g1 ++ " " ++ sfx.getD ""
        | none => name
      else name

/-! ### `clean_channel_name` -/

/-- Python `str.strip()` (ASCII whitespace model). -/
def pyStrip (cs : List Char) : List Char :=
  ((cs.dropWhile isPyWs).reverse.dropWhile isPyWs).reverse

/-- Model of `re.match(r'^(CCTV|央视|中央电视台)', name, re.IGNORECASE)` as a
boolean: the name starts with one of the three markers. -/
def startsCCTVMarker (name : String) : Bool :=
  startsWithS (lowerStr name) "cctv" || startsWithS name "央视" ||
    startsWithS name "中央电视台"

/-- The body of `clean_channel_name` up to (but excluding) the final
degenerate-result fallback. -/
def cleanCore (name : String) : String :=
  let r1 := applyCleanRules name.toList
  let r2 := rule_dedup r1
  let s2 := r2.asString
  let s3 := if startsCCTVMarker s2 then standardize_cctv_name s2 else s2
  let s4 :=
    if endsWithS s3 "卫视" && s3.length > 2 then
      (runRule (mSuffix "卫视".toList "卫视".toList) s3.toList).asString
    else s3
  let s5 :=
    if hasSub "cctv" (lowerStr s4) then
      (runRule (mLitCI "cctv".toList "CCTV".toList) s4.toList).asString
    else s4
  let s6 := (runRule mWsRun s5.toList).asString
  (pyStrip s6.toList).asString

/-- Model of `clean_channel_name(name)`: run the cleaning pipeline; if the result
is empty or shorter than 2 characters, return the original input. -/
def clean_channel_name (name : String) : String :=
  let r := cleanCore name
  if r = "" || r.length < 2 then name else r


/-! ## Theorems -/

/-- Claim C1: with blacklisting and whitelisting enabled, a URL that is both
blacklisted (in the blacklist set or among the slow URLs) and whitelisted
is kept by the filter exactly when `WHITELIST_OVERRIDE_BLACKLIST` is set:
kept when the flag is true, dropped when it is false. -/
theorem filter_keep_whitelist_precedence
    (reSearch : String → String → Option Bool) (config : Config)
    (blacklist slowUrls : List String) (whitelistData : Option WhitelistData)
    (url : String)
    (hB : config.ENABLE_BLACKLIST = true)
    (hW : config.ENABLE_WHITELIST = true)
    (hblk : url ∈ blacklist ∨ url ∈ slowUrls)
    (hwl : is_in_whitelist reSearch url whitelistData config = true) :
    filter_keep reSearch config blacklist slowUrls whitelistData url =
      config.WHITELIST_OVERRIDE_BLACKLIST := by
  unfold filter_keep
  rcases hov : config.WHITELIST_OVERRIDE_BLACKLIST with _ | _ <;>
    rcases hblk with h | h <;>
    simp [hB, hW, hwl, hov, h]

/-- Witness for C1 at a concrete input: the URL is in both lists; with the
override flag true the channel is kept, with it false it is dropped. -/
theorem filter_keep_whitelist_precedence_witness :
    filter_keep (fun _ _ => none)
      ⟨true, true, true, false, 5⟩ ["http://x/a"] [] (some ⟨[], ["http://x/a"]⟩)
      "http://x/a" = true ∧
    filter_keep (fun _ _ => none)
      ⟨true, true, false, false, 5⟩ ["http://x/a"] [] (some ⟨[], ["http://x/a"]⟩)
      "http://x/a" = false := by
  constructor
  · exact filter_keep_whitelist_precedence (fun _ _ => none)
      ⟨true, true, true, false, 5⟩ ["http://x/a"] [] (some ⟨[], ["http://x/a"]⟩)
      "http://x/a" rfl rfl (Or.inl (by decide)) (by decide)
  · exact filter_keep_whitelist_precedence (fun _ _ => none)
      ⟨true, true, false, false, 5⟩ ["http://x/a"] [] (some ⟨[], ["http://x/a"]⟩)
      "http://x/a" rfl rfl (Or.inl (by decide)) (by decide)

/-- Claim C10 (implicit): with `ENABLE_WHITELIST` false, or a falsy or empty
whitelist structure, `is_in_whitelist` returns false regardless of the
URL, and consequently the whitelist-override rule can never rescue a
blacklisted URL: the filter drops every blacklisted URL. -/
theorem is_in_whitelist_disabled
    (reSearch : String → String → Option Bool) (config : Config)
    (whitelistData : Option WhitelistData) (url : String)
    (h : config.ENABLE_WHITELIST = false ∨ whitelistData = none ∨
         whitelistData = some ⟨[], []⟩) :
    is_in_whitelist reSearch url whitelistData config = false ∧
    (∀ blacklist slowUrls : List String, config.ENABLE_BLACKLIST = true →
      url ∈ blacklist ∨ url ∈ slowUrls →
      filter_keep reSearch config blacklist slowUrls whitelistData url = false) := by
  have hwl : is_in_whitelist reSearch url whitelistData config = false := by
    rcases h with h | h | h
    · simp [is_in_whitelist, h]
    · subst h; unfold is_in_whitelist; split <;> simp
    · subst h; unfold is_in_whitelist; split <;> simp [List.any]
  refine ⟨hwl, fun blacklist slowUrls hB hblk => ?_⟩
  unfold filter_keep
  rcases hblk with hm | hm <;> simp [hwl, hB, hm]

/-- Witness for C10: whitelisting disabled, the URL is in the whitelist's
url set and in the blacklist; `is_in_whitelist` is false and the filter
drops the URL. -/
theorem is_in_whitelist_disabled_witness :
    is_in_whitelist (fun _ _ => none) "http://x/a"
      (some ⟨["*x*"], ["http://x/a"]⟩) ⟨false, true, true, false, 5⟩ = false ∧
    filter_keep (fun _ _ => none) ⟨false, true, true, false, 5⟩
      ["http://x/a"] [] (some ⟨["*x*"], ["http://x/a"]⟩) "http://x/a" = false := by
  have h := is_in_whitelist_disabled (fun _ _ => none)
    ⟨false, true, true, false, 5⟩ (some ⟨["*x*"], ["http://x/a"]⟩) "http://x/a"
    (Or.inl rfl)
  exact ⟨h.1, h.2 ["http://x/a"] [] rfl (Or.inl (by decide))⟩

set_option maxRecDepth 40000

/-- Claim C3, counterexample: normalization is *not* idempotent.  The
separator rule (`[_\-\|]+` → space) runs after the suffix-stripping
rules, so cleaning `"体育_台"` yields `"体育 台"`, and cleaning that
again strips the now-exposed `台` suffix, yielding `"体育"`. -/
theorem clean_channel_name_not_idempotent :
    clean_channel_name (clean_channel_name "体育_台") ≠
      clean_channel_name "体育_台" := by decide

/-- The canonical channel names of the channel-order table
(`CHANNEL_ORDER_RULES`): the standardized CCTV digit channels and the
satellite channels. -/
def canonicalChannelNames : List String := [
  "CCTV-1 综合", "CCTV-2 财经", "CCTV-3 综艺", "CCTV-4 中文国际",
  "CCTV-5 体育", "CCTV-5+ 体育赛事", "CCTV-6 电影", "CCTV-7 国防军事",
  "CCTV-8 电视剧", "CCTV-9 纪录", "CCTV-10 科教", "CCTV-11 戏曲",
  "CCTV-12 社会与法", "CCTV-13 新闻", "CCTV-14 少儿", "CCTV-15 音乐",
  "CCTV-16 奥林匹克", "CCTV-17 农业农村",
  "北京卫视", "上海东方卫视", "天津卫视", "重庆卫视", "河北卫视", "山西卫视",
  "辽宁卫视", "吉林卫视", "黑龙江卫视", "江苏卫视", "浙江卫视", "安徽卫视",
  "福建卫视", "江西卫视", "山东卫视", "河南卫视", "湖北卫视", "湖南卫视",
  "广东卫视", "广西卫视", "海南卫视", "四川卫视", "贵州卫视", "云南卫视",
  "陕西卫视", "甘肃卫视", "青海卫视", "宁夏卫视", "新疆卫视", "内蒙古卫视",
  "西藏卫视"]

/-- Claim C3, amended: normalization is idempotent on the canonical
channel names (the standardized CCTV digit-channel names and the
satellite-channel names of the channel-order table), though not on every
string (see `clean_channel_name_not_idempotent`). -/
theorem clean_channel_name_idempotent_on_canonical :
    ∀ name ∈ canonicalChannelNames,
      clean_channel_name (clean_channel_name name) = clean_channel_name name := by
  decide

/-- Witness for the amended C3 at a concrete member of the list. -/
theorem clean_channel_name_idempotent_on_canonical_witness :
    clean_channel_name (clean_channel_name "湖南卫视") = clean_channel_name "湖南卫视" :=
  clean_channel_name_idempotent_on_canonical "湖南卫视" (by decide)

/-- Claim C7: if the fully cleaned result is empty or shorter than two
characters, `clean_channel_name` returns the original input unchanged;
consequently it never returns the empty string for a non-empty input. -/
theorem clean_channel_name_degenerate_fallback (name : String) :
    ((cleanCore name = "" ∨ (cleanCore name).length < 2) →
      clean_channel_name name = name) ∧
    (name ≠ "" → clean_channel_name name ≠ "") := by
  unfold clean_channel_name
  generalize cleanCore name = r
  dsimp only
  constructor
  · intro h
    split
    · rfl
    next hcond => exact absurd (by rcases h with h | h <;> simp [h]) hcond
  · intro hne
    split
    · exact hne
    next hcond =>
      intro he
      exact hcond (by simp [he])

/-- Witness for C7: `"短"` cleans to a 1-character result, so the
original input is returned, and the result of a non-empty input is
non-empty. -/
theorem clean_channel_name_degenerate_fallback_witness :
    clean_channel_name "短" = "短" ∧ clean_channel_name "短" ≠ "" :=
  ⟨(clean_channel_name_degenerate_fallback "短").1 (by decide),
   (clean_channel_name_degenerate_fallback "短").2 (by decide)⟩

/-- Claim C9: probe failures never produce a positive score: a stream
response with status outside {200, 206} is recorded as a failure;
`calculate_speed_score` yields 0 for every failed result; and
`test_url_speed` yields score 0 and `success = false` whenever the probe
failed — on the M3U8 branch for any failed stream test, and on the simple
branch for any exception or status ≥ 400.  (Exceptions are modelled as
`StreamWorld`/`SimpleWorld` constructors: the functions are total over
them, which is the embedding of "no exception propagates".) -/
theorem speed_probe_failure_scores_zero (ipv6Parse : String → Bool)
    (config : Config) (url : String) (mw : StreamWorld) (sw : SimpleWorld) :
    (∀ status ctype clen ct rt chunks trip, status ≠ 200 → status ≠ 206 →
      (test_m3u8_stream
        (StreamWorld.responded status ctype clen ct rt chunks trip)).success = false) ∧
    (∀ tr : TestResults, tr.success = false →
      calculate_speed_score ipv6Parse config tr url = 0) ∧
    (isM3u8Probe url = true → (test_m3u8_stream mw).success = false →
      (test_url_speed ipv6Parse config url mw sw).score = 0 ∧
      (test_url_speed ipv6Parse config url mw sw).success = false) ∧
    (isM3u8Probe url = false →
      ((∃ msg, sw = SimpleWorld.exc msg) ∨
       (∃ status rt, sw = SimpleWorld.responded status rt ∧ 400 ≤ status)) →
      (test_url_speed ipv6Parse config url mw sw).score = 0 ∧
      (test_url_speed ipv6Parse config url mw sw).success = false) := by
  have hscore : ∀ tr : TestResults, tr.success = false →
      calculate_speed_score ipv6Parse config tr url = 0 := by
    intro tr htr
    unfold calculate_speed_score
    simp [htr]
  refine ⟨?_, hscore, ?_, ?_⟩
  · intro status ctype clen ct rt chunks trip h200 h206
    unfold test_m3u8_stream
    simp [h200, h206]
  · intro hm3u8 hfail
    unfold test_url_speed
    simp only [hm3u8, if_true]
    exact ⟨hscore _ hfail, hfail⟩
  · intro hm3u8 hsw
    unfold test_url_speed
    simp only [hm3u8]
    rcases hsw with ⟨msg, rfl⟩ | ⟨status, rt, rfl, hst⟩
    · simp
    · have : ¬ status < 400 := by omega
      simp [this]

/-- Witness for C9: a concrete `.m3u8` URL whose stream probe returned
HTTP 404, and a concrete plain URL whose simple probe returned HTTP 500:
both yield score 0 and `success = false`. -/
theorem speed_probe_failure_scores_zero_witness :
    (test_url_speed (fun _ => false) ⟨true, true, true, true, 5⟩ "http://h/a.m3u8"
      (StreamWorld.responded 404 "text/html" 10 1 1 [2048] none)
      (SimpleWorld.responded 500 1)).score = 0 ∧
    (test_url_speed (fun _ => false) ⟨true, true, true, true, 5⟩ "http://h/plain"
      (StreamWorld.responded 404 "text/html" 10 1 1 [2048] none)
      (SimpleWorld.responded 500 1)).success = false := by
  have h1 := speed_probe_failure_scores_zero (fun _ => false)
    ⟨true, true, true, true, 5⟩ "http://h/a.m3u8"
    (StreamWorld.responded 404 "text/html" 10 1 1 [2048] none)
    (SimpleWorld.responded 500 1)
  have h2 := speed_probe_failure_scores_zero (fun _ => false)
    ⟨true, true, true, true, 5⟩ "http://h/plain"
    (StreamWorld.responded 404 "text/html" 10 1 1 [2048] none)
    (SimpleWorld.responded 500 1)
  refine ⟨(h1.2.2.1 (by decide) ?_).1, (h2.2.2.2 (by decide) ?_).2⟩
  · exact h1.1 404 "text/html" 10 1 1 [2048] none (by decide) (by decide)
  · exact Or.inr ⟨500, 1, rfl, by omega⟩

/-! ### Merge-engine invariants (helpers shared by the merge theorems) -/

/-- The urls of a channel's sources, in order. -/
def urlsOf (ch : MChannel) : List String := ch.sources.map (fun s => s.url)

lemma insertByPriority_perm (s : Source) (l : List Source) :
    (insertByPriority s l).Perm (s :: l) := by
  induction l with
  | nil => exact List.Perm.refl _
  | cons t ts ih =>
    unfold insertByPriority
    split
    · exact List.Perm.refl _
    · exact (List.Perm.cons t ih).trans (List.Perm.swap s t ts)

lemma sortSourcesDesc_perm (l : List Source) : (sortSourcesDesc l).Perm l := by
  have key : ∀ (l acc : List Source),
      (l.foldl (fun a s => insertByPriority s a) acc).Perm (acc ++ l) := by
    intro l
    induction l with
    | nil => intro acc; simp
    | cons s t ih =>
      intro acc
      have h1 : (t.foldl (fun a s => insertByPriority s a)
          (insertByPriority s acc)).Perm (insertByPriority s acc ++ t) := ih _
      have h2 : (insertByPriority s acc ++ t).Perm ((s :: acc) ++ t) :=
        (insertByPriority_perm s acc).append_right t
      have h3 : ((s :: acc) ++ t).Perm (acc ++ s :: t) := List.perm_middle.symm
      exact (h1.trans h2).trans h3
  simpa using key l []

lemma foldInto_clean_name (p6 : String → Bool) (sr : Option (List (String × ℚ)))
    (ch : MChannel) (e : Entry) :
    (foldIntoChannel p6 sr ch e).clean_name = ch.clean_name := rfl

lemma foldInto_categories (p6 : String → Bool) (sr : Option (List (String × ℚ)))
    (ch : MChannel) (e : Entry) :
    (foldIntoChannel p6 sr ch e).categories =
      addCategory ch.categories (categorize_channel e.clean_name) := rfl

lemma foldInto_sources (p6 : String → Bool) (sr : Option (List (String × ℚ)))
    (ch : MChannel) (e : Entry) :
    (foldIntoChannel p6 sr ch e).sources =
      if e.url ∈ urlsOf ch then ch.sources else ch.sources ++ [mkSource p6 sr e] := rfl

lemma urlsOf_foldInto (p6 : String → Bool) (sr : Option (List (String × ℚ)))
    (ch : MChannel) (e : Entry) :
    urlsOf (foldIntoChannel p6 sr ch e) =
      if e.url ∈ urlsOf ch then urlsOf ch else urlsOf ch ++ [e.url] := by
  by_cases h : e.url ∈ urlsOf ch
  · rw [if_pos h]
    show (foldIntoChannel p6 sr ch e).sources.map (fun s => s.url) = urlsOf ch
    rw [foldInto_sources, if_pos h]
    rfl
  · rw [if_neg h]
    show (foldIntoChannel p6 sr ch e).sources.map (fun s => s.url) = urlsOf ch ++ [e.url]
    rw [foldInto_sources, if_neg h]
    simp [mkSource, urlsOf]

lemma newMChannel_fields (p6 : String → Bool) (sr : Option (List (String × ℚ)))
    (e : Entry) :
    (newMChannel p6 sr e).clean_name = e.clean_name ∧
    urlsOf (newMChannel p6 sr e) = [e.url] ∧
    (newMChannel p6 sr e).categories = [categorize_channel e.clean_name] := by
  refine ⟨rfl, ?_, ?_⟩
  · simp [newMChannel, urlsOf, mkSource]
  · simp [newMChannel, addCategory]

/-- The loop invariant of `merge_channels`: after folding `processed`,
every accumulated channel has duplicate-free source urls, its url set is
exactly the urls of the processed entries with its key, its category set
is the singleton of its key's category, and the accumulated keys are
exactly the processed keys. -/
def MergeInv (processed : List Entry) (m : List MChannel) : Prop :=
  (∀ ch ∈ m, (urlsOf ch).Nodup) ∧
  (∀ ch ∈ m, ∀ u, u ∈ urlsOf ch ↔
    ∃ e ∈ processed, e.clean_name = ch.clean_name ∧ e.url = u) ∧
  (∀ ch ∈ m, ch.categories = [categorize_channel ch.clean_name]) ∧
  (∀ key, (∃ ch ∈ m, ch.clean_name = key) ↔ ∃ e ∈ processed, e.clean_name = key)

lemma mergeStep_inv (p6 : String → Bool) (sr : Option (List (String × ℚ)))
    (processed : List Entry) (m : List MChannel) (e : Entry)
    (h : MergeInv processed m) :
    MergeInv (processed ++ [e]) (mergeStep p6 sr m e) := by
  obtain ⟨hnd, hurl, hcat, hkey⟩ := h
  unfold mergeStep
  by_cases hex : ∃ ch ∈ m, ch.clean_name = e.clean_name
  · have hany : (m.any fun ch => ch.clean_name = e.clean_name) = true := by
      rcases hex with ⟨ch, hch, hnm⟩
      exact List.any_eq_true.mpr ⟨ch, hch, by simp [hnm]⟩
    rw [if_pos hany]
    refine ⟨?_, ?_, ?_, ?_⟩
    · intro ch' hch'
      obtain ⟨ch, hch, rfl⟩ := List.mem_map.mp hch'
      by_cases hc : ch.clean_name = e.clean_name
      · rw [if_pos hc, urlsOf_foldInto]
        split
        · exact hnd ch hch
        next hmem =>
          simp [List.nodup_append, hnd ch hch, hmem]
      · rw [if_neg hc]
        exact hnd ch hch
    · intro ch' hch' u
      obtain ⟨ch, hch, rfl⟩ := List.mem_map.mp hch'
      by_cases hc : ch.clean_name = e.clean_name
      · rw [if_pos hc, urlsOf_foldInto, foldInto_clean_name]
        by_cases hmem : e.url ∈ urlsOf ch
        · rw [if_pos hmem]
          constructor
          · intro hu
            obtain ⟨e', he', h1, h2⟩ := (hurl ch hch u).mp hu
            exact ⟨e', List.mem_append_left _ he', h1, h2⟩
          · rintro ⟨e', he', h1, h2⟩
            rcases List.mem_append.mp he' with he' | he'
            · exact (hurl ch hch u).mpr ⟨e', he', h1, h2⟩
            · obtain rfl : e' = e := by simpa using he'
              subst h2
              exact hmem
        · rw [if_neg hmem]
          simp only [List.mem_append, List.mem_singleton]
          constructor
          · rintro (hu | rfl)
            · obtain ⟨e', he', h1, h2⟩ := (hurl ch hch u).mp hu
              exact ⟨e', Or.inl he', h1, h2⟩
            · exact ⟨e, Or.inr rfl, hc.symm, rfl⟩
          · rintro ⟨e', he' | he', h1, h2⟩
            · exact Or.inl ((hurl ch hch u).mpr ⟨e', he', h1, h2⟩)
            · subst he'
              exact Or.inr h2.symm
      · rw [if_neg hc]
        constructor
        · intro hu
          obtain ⟨e', he', h1, h2⟩ := (hurl ch hch u).mp hu
          exact ⟨e', List.mem_append_left _ he', h1, h2⟩
        · rintro ⟨e', he', h1, h2⟩
          rcases List.mem_append.mp he' with he' | he'
          · exact (hurl ch hch u).mpr ⟨e', he', h1, h2⟩
          · obtain rfl : e' = e := by simpa using he'
            exact absurd h1.symm hc
    · intro ch' hch'
      obtain ⟨ch, hch, rfl⟩ := List.mem_map.mp hch'
      by_cases hc : ch.clean_name = e.clean_name
      · rw [if_pos hc, foldInto_categories, foldInto_clean_name, hcat ch hch]
        have : categorize_channel e.clean_name = categorize_channel ch.clean_name := by
          rw [hc]
        rw [this]
        simp [addCategory]
      · rw [if_neg hc]
        exact hcat ch hch
    · intro key
      have hmapkeys : (∃ ch' ∈ m.map (fun ch =>
          if ch.clean_name = e.clean_name then foldIntoChannel p6 sr ch e else ch),
          ch'.clean_name = key) ↔ ∃ ch ∈ m, ch.clean_name = key := by
        constructor
        · rintro ⟨ch', hch', hk⟩
          obtain ⟨ch, hch, rfl⟩ := List.mem_map.mp hch'
          refine ⟨ch, hch, ?_⟩
          by_cases hc : ch.clean_name = e.clean_name
          · rw [if_pos hc, foldInto_clean_name] at hk; exact hk
          · rw [if_neg hc] at hk; exact hk
        · rintro ⟨ch, hch, hk⟩
          by_cases hc : ch.clean_name = e.clean_name
          · exact ⟨_, List.mem_map_of_mem _ hch, by rw [if_pos hc, foldInto_clean_name]; exact hk⟩
          · exact ⟨_, List.mem_map_of_mem _ hch, by rw [if_neg hc]; exact hk⟩
      rw [hmapkeys, hkey key]
      constructor
      · rintro ⟨e', he', hk⟩
        exact ⟨e', List.mem_append_left _ he', hk⟩
      · rintro ⟨e', he', hk⟩
        rcases List.mem_append.mp he' with he' | he'
        · exact ⟨e', he', hk⟩
        · obtain rfl : e' = e := by simpa using he'
          obtain ⟨ch, hch, hnm⟩ := hex
          exact (hkey key).mp ⟨ch, hch, by rw [hnm]; exact hk⟩
  · have hany : (m.any fun ch => ch.clean_name = e.clean_name) = false := by
      rw [List.any_eq_false]
      intro ch hch
      simp only [decide_eq_true_eq]
      exact fun hc => hex ⟨ch, hch, hc⟩
    rw [if_neg (by simp [hany])]
    obtain ⟨hn1, hn2, hn3⟩ := newMChannel_fields p6 sr e
    refine ⟨?_, ?_, ?_, ?_⟩
    · intro ch' hch'
      rcases List.mem_append.mp hch' with hch' | hch'
      · exact hnd ch' hch'
      · obtain rfl : ch' = newMChannel p6 sr e := by simpa using hch'
        rw [hn2]
        exact List.nodup_singleton _
    · intro ch' hch' u
      rcases List.mem_append.mp hch' with hchm | hchn
      · constructor
        · intro hu
          obtain ⟨e', he', h1, h2⟩ := (hurl ch' hchm u).mp hu
          exact ⟨e', List.mem_append_left _ he', h1, h2⟩
        · rintro ⟨e', he', h1, h2⟩
          rcases List.mem_append.mp he' with hep | hee
          · exact (hurl ch' hchm u).mpr ⟨e', hep, h1, h2⟩
          · have hee' : e' = e := by simpa using hee
            rw [hee'] at h1
            exact absurd ⟨ch', hchm, h1.symm⟩ hex
      · obtain rfl : ch' = newMChannel p6 sr e := by simpa using hchn
        rw [hn2, hn1]
        simp only [List.mem_singleton]
        constructor
        · rintro rfl
          exact ⟨e, List.mem_append_right _ (by simp), rfl, rfl⟩
        · rintro ⟨e', he', h1, h2⟩
          rcases List.mem_append.mp he' with he' | he'
          · exact absurd ((hkey e.clean_name).mpr ⟨e', he', h1⟩)
              (fun ⟨ch, hch, hc⟩ => hex ⟨ch, hch, hc⟩)
          · obtain rfl : e' = e := by simpa using he'
            exact h2.symm
    · intro ch' hch'
      rcases List.mem_append.mp hch' with hch' | hch'
      · exact hcat ch' hch'
      · obtain rfl : ch' = newMChannel p6 sr e := by simpa using hch'
        rw [hn3, hn1]
    · intro key
      constructor
      · rintro ⟨ch', hch', hk⟩
        rcases List.mem_append.mp hch' with hch' | hch'
        · obtain ⟨e', he', hk'⟩ := (hkey key).mp ⟨ch', hch', hk⟩
          exact ⟨e', List.mem_append_left _ he', hk'⟩
        · obtain rfl : ch' = newMChannel p6 sr e := by simpa using hch'
          rw [hn1] at hk
          exact ⟨e, List.mem_append_right _ (by simp), hk⟩
      · rintro ⟨e', he', hk⟩
        rcases List.mem_append.mp he' with he' | he'
        · obtain ⟨ch, hch, hc⟩ := (hkey key).mpr ⟨e', he', hk⟩
          exact ⟨ch, List.mem_append_left _ hch, hc⟩
        · have hee : e' = e := by simpa using he'
          refine ⟨newMChannel p6 sr e, List.mem_append_right _ (by simp), ?_⟩
          rw [hn1, ← hee]
          exact hk

lemma foldl_merge_inv (p6 : String → Bool) (sr : Option (List (String × ℚ))) :
    ∀ (rest processed : List Entry) (m : List MChannel),
      MergeInv processed m →
      MergeInv (processed ++ rest) (rest.foldl (mergeStep p6 sr) m) := by
  intro rest
  induction rest with
  | nil => intro processed m h; simpa using h
  | cons e t ih =>
    intro processed m h
    have h2 := ih (processed ++ [e]) _ (mergeStep_inv p6 sr processed m e h)
    simpa using h2

lemma merge_inv_of_entries (p6 : String → Bool) (sr : Option (List (String × ℚ)))
    (entries : List Entry) :
    MergeInv entries (entries.foldl (mergeStep p6 sr) []) := by
  have h0 : MergeInv [] ([] : List MChannel) := by
    refine ⟨?_, ?_, ?_, ?_⟩ <;> simp [MergeInv]
  simpa using foldl_merge_inv p6 sr entries [] [] h0

lemma finalize_clean_name (config : Config) (ch : MChannel) :
    (finalizeChannel config ch).clean_name = ch.clean_name := rfl

lemma finalize_categories (config : Config) (ch : MChannel) :
    (finalizeChannel config ch).categories = ch.categories := rfl

lemma finalize_urls_perm (config : Config) (ch : MChannel) :
    (urlsOf (finalizeChannel config ch)).Perm (urlsOf ch) := by
  have hp := (sortSourcesDesc_perm (ch.sources.map
    (fun s => { s with priority := get_source_priority config s }))).map
    (fun s => s.url)
  simpa [urlsOf, finalizeChannel, List.map_map, Function.comp] using hp

lemma finalize_category (config : Config) (ch : MChannel)
    (h : ch.categories = [categorize_channel ch.clean_name]) :
    (finalizeChannel config ch).category = categorize_channel ch.clean_name := by
  show (match ch.categories.filter (fun c => c ≠ "其他台") with
        | [] => "其他台"
        | c :: _ => c) = categorize_channel ch.clean_name
  rw [h]
  by_cases ho : categorize_channel ch.clean_name = "其他台"
  · simp [List.filter, ho]
  · simp [List.filter, ho]

lemma merge_mem_elim (config : Config) (p6 : String → Bool)
    (sr : Option (List (String × ℚ))) (entries : List Entry) (ch : MChannel)
    (hch : ch ∈ merge_channels config p6 sr entries) :
    ∃ ch₀ ∈ entries.foldl (mergeStep p6 sr) [], ch = finalizeChannel config ch₀ := by
  obtain ⟨ch₀, h1, h2⟩ := List.mem_map.mp hch
  exact ⟨ch₀, h1, h2.symm⟩

/-- Claim C2: every channel produced by `merge_channels` has
pairwise-distinct source urls; a url appears among a channel's sources
exactly when some input entry carries that channel's normalized name and
that url (regardless of its `source` feed); and any such url has exactly
one source record. -/
theorem merge_channels_url_dedup (config : Config) (p6 : String → Bool)
    (sr : Option (List (String × ℚ))) (entries : List Entry) (ch : MChannel)
    (hch : ch ∈ merge_channels config p6 sr entries) :
    (urlsOf ch).Nodup ∧
    (∀ u, u ∈ urlsOf ch ↔ ∃ e ∈ entries, e.clean_name = ch.clean_name ∧ e.url = u) ∧
    (∀ u, (∃ e ∈ entries, e.clean_name = ch.clean_name ∧ e.url = u) →
      (urlsOf ch).count u = 1) := by
  obtain ⟨ch₀, h0, rfl⟩ := merge_mem_elim config p6 sr entries ch hch
  obtain ⟨hnd, hurl, _, _⟩ := merge_inv_of_entries p6 sr entries
  have hperm := finalize_urls_perm config ch₀
  have hnd' : (urlsOf (finalizeChannel config ch₀)).Nodup :=
    hperm.nodup_iff.mpr (hnd ch₀ h0)
  have hmem : ∀ u, u ∈ urlsOf (finalizeChannel config ch₀) ↔
      ∃ e ∈ entries, e.clean_name = (finalizeChannel config ch₀).clean_name ∧
        e.url = u := by
    intro u
    rw [hperm.mem_iff, finalize_clean_name]
    exact hurl ch₀ h0 u
  refine ⟨hnd', hmem, fun u hu => ?_⟩
  exact List.count_eq_one_of_mem hnd' ((hmem u).mpr hu)

/-- Claim C4: a merged channel's final category is `"其他台"` exactly when
every entry folded into it (i.e. every input entry with its normalized
name) categorized as `"其他台"`; and whenever some folded entry
categorized to a non-`"其他台"` label, the final category is itself one
of the observed non-`"其他台"` labels. -/
theorem merge_channels_category_stability (config : Config) (p6 : String → Bool)
    (sr : Option (List (String × ℚ))) (entries : List Entry) (ch : MChannel)
    (hch : ch ∈ merge_channels config p6 sr entries) :
    (ch.category = "其他台" ↔
      ∀ e ∈ entries, e.clean_name = ch.clean_name →
        categorize_channel e.clean_name = "其他台") ∧
    ((∃ e ∈ entries, e.clean_name = ch.clean_name ∧
        categorize_channel e.clean_name ≠ "其他台") →
      ch.category ≠ "其他台" ∧
      ∃ e ∈ entries, e.clean_name = ch.clean_name ∧
        categorize_channel e.clean_name = ch.category) := by
  obtain ⟨ch₀, h0, rfl⟩ := merge_mem_elim config p6 sr entries ch hch
  obtain ⟨_, _, hcat, hkey⟩ := merge_inv_of_entries p6 sr entries
  have hc : (finalizeChannel config ch₀).category = categorize_channel ch₀.clean_name :=
    finalize_category config ch₀ (hcat ch₀ h0)
  have hn : (finalizeChannel config ch₀).clean_name = ch₀.clean_name :=
    finalize_clean_name config ch₀
  obtain ⟨e0, he0, hk0⟩ := (hkey ch₀.clean_name).mp ⟨ch₀, h0, rfl⟩
  constructor
  · rw [hc, hn]
    constructor
    · intro h e he hename
      rw [hename]
      exact h
    · intro hall
      have h := hall e0 he0 hk0
      rw [hk0] at h
      exact h
  · rw [hc, hn]
    rintro ⟨e, he, hename, hne⟩
    rw [hename] at hne
    exact ⟨hne, e, he, hename, by rw [hename]⟩

/-- Claim C5: the observed category set of a merged channel is the
singleton of its key's category (every folded entry contributes
`categorize_channel(key)` for the same key), so the final category equals
the first non-`"其他台"` label of the observed categories in insertion
order whenever one exists — and this is independent of the enumeration
order of the underlying Python set, the set being a singleton. -/
theorem merge_channels_first_non_other (config : Config) (p6 : String → Bool)
    (sr : Option (List (String × ℚ))) (entries : List Entry) (ch : MChannel)
    (hch : ch ∈ merge_channels config p6 sr entries) :
    ch.categories = [categorize_channel ch.clean_name] ∧
    ((ch.categories.filter (fun c => c ≠ "其他台")) ≠ [] →
      (ch.categories.filter (fun c => c ≠ "其他台")).head? = some ch.category) := by
  obtain ⟨ch₀, h0, rfl⟩ := merge_mem_elim config p6 sr entries ch hch
  obtain ⟨_, _, hcat, _⟩ := merge_inv_of_entries p6 sr entries
  have hc : (finalizeChannel config ch₀).category = categorize_channel ch₀.clean_name :=
    finalize_category config ch₀ (hcat ch₀ h0)
  have hcats : (finalizeChannel config ch₀).categories =
      [categorize_channel ch₀.clean_name] := by
    rw [finalize_categories]
    exact hcat ch₀ h0
  refine ⟨by rw [hcats, finalize_clean_name], ?_⟩
  rw [hcats, hc]
  by_cases ho : categorize_channel ch₀.clean_name = "其他台"
  · intro hne
    exact absurd (by simp [List.filter, ho]) hne
  · intro _
    simp [List.filter, ho]

lemma speed_bonus_zero (config : Config) (q : ℚ) (hq : q < 1/2) :
    (if config.ENABLE_SPEED_TEST then
      if q ≥ 9/10 then (50 : Int)
      else if q ≥ 7/10 then 30
      else if q ≥ 1/2 then 10
      else 0
     else 0) = 0 := by
  have h9 : ¬ q ≥ 9/10 := by linarith
  have h7 : ¬ q ≥ 7/10 := by linarith
  have h5 : ¬ q ≥ 1/2 := by linarith
  split
  · simp [if_neg h9, if_neg h7, if_neg h5]
  · rfl

/-- Priority of a source with no bonus-triggering feature except possibly
IPv6 and quality. -/
lemma priority_no_marker_bonus (config : Config) (s : Source)
    (hm : hasSub "cdn" (lowerStr s.url) = false ∧
          hasSub "akamai" (lowerStr s.url) = false ∧
          hasSub "cloudfront" (lowerStr s.url) = false ∧
          hasSub "https://" (lowerStr s.url) = false ∧
          hasSub "m3u8" (lowerStr s.url) = false)
    (hw : s.is_whitelist = false)
    (hs : s.speed_score < 1/2) :
    get_source_priority config s =
      (if s.is_ipv6 then 100 else 0) + qualityScore s.quality := by
  obtain ⟨h1, h2, h3, h4, h5⟩ := hm
  unfold get_source_priority
  rw [speed_bonus_zero config s.speed_score hs]
  simp [h1, h2, h3, h4, h5, hw]

/-- Claim C6: for a logical channel holding exactly an IPv4 source of
quality `"4K"` and an IPv6-detected source of quality `"未知"`, neither
carrying any other bonus feature (not whitelisted, no CDN / `https://` /
`m3u8` marker in the url, no speed bonus), `merge_channels` sorts the
IPv6 source first: `get_source_priority` gives it 100 versus 40 for the
4K source. -/
theorem merge_channels_ipv6_first (config : Config) (p6 : String → Bool)
    (sr : Option (List (String × ℚ))) (e1 e2 : Entry)
    (hname : e1.clean_name = e2.clean_name)
    (hurl : e1.url ≠ e2.url)
    (h4k : e1.quality = "4K") (hunk : e2.quality = "未知")
    (hv61 : is_ipv6_url p6 e1.url = false) (hv62 : is_ipv6_url p6 e2.url = true)
    (hw1 : e1.is_whitelist = false) (hw2 : e2.is_whitelist = false)
    (hm1 : hasSub "cdn" (lowerStr e1.url) = false ∧
           hasSub "akamai" (lowerStr e1.url) = false ∧
           hasSub "cloudfront" (lowerStr e1.url) = false ∧
           hasSub "https://" (lowerStr e1.url) = false ∧
           hasSub "m3u8" (lowerStr e1.url) = false)
    (hm2 : hasSub "cdn" (lowerStr e2.url) = false ∧
           hasSub "akamai" (lowerStr e2.url) = false ∧
           hasSub "cloudfront" (lowerStr e2.url) = false ∧
           hasSub "https://" (lowerStr e2.url) = false ∧
           hasSub "m3u8" (lowerStr e2.url) = false)
    (hs1 : speedScoreOf sr e1.url < 1/2) (hs2 : speedScoreOf sr e2.url < 1/2) :
    (merge_channels config p6 sr [e1, e2]).map
      (fun ch => ch.sources.map (fun s => (s.url, s.priority))) =
      [[(e2.url, 100), (e1.url, 40)]] := by
  have step1 : mergeStep p6 sr [] e1 = [newMChannel p6 sr e1] := by
    simp [mergeStep]
  have cond2 : (([newMChannel p6 sr e1]).any
      fun ch => ch.clean_name = e2.clean_name) = true := by
    simp [newMChannel, hname]
  have step2 : mergeStep p6 sr [newMChannel p6 sr e1] e2 =
      [foldIntoChannel p6 sr (newMChannel p6 sr e1) e2] := by
    unfold mergeStep
    rw [if_pos cond2]
    simp [newMChannel, hname]
  have hnotmem : e2.url ∉ urlsOf (newMChannel p6 sr e1) := by
    obtain ⟨-, hn2, -⟩ := newMChannel_fields p6 sr e1
    rw [hn2]
    simp
    exact fun h => hurl h.symm
  have hsrc : (foldIntoChannel p6 sr (newMChannel p6 sr e1) e2).sources =
      [mkSource p6 sr e1, mkSource p6 sr e2] := by
    rw [foldInto_sources, if_neg hnotmem]
    rfl
  have q1 : get_source_priority config (mkSource p6 sr e1) = 40 := by
    rw [priority_no_marker_bonus config (mkSource p6 sr e1)
      (by simpa [mkSource] using hm1) (by simpa [mkSource] using hw1)
      (by simpa [mkSource] using hs1)]
    show (if is_ipv6_url p6 e1.url then (100 : Int) else 0) + qualityScore e1.quality = 40
    rw [hv61, h4k]
    rfl
  have q2 : get_source_priority config (mkSource p6 sr e2) = 100 := by
    rw [priority_no_marker_bonus config (mkSource p6 sr e2)
      (by simpa [mkSource] using hm2) (by simpa [mkSource] using hw2)
      (by simpa [mkSource] using hs2)]
    show (if is_ipv6_url p6 e2.url then (100 : Int) else 0) + qualityScore e2.quality = 100
    rw [hv62, hunk]
    rfl
  have hfold : [e1, e2].foldl (mergeStep p6 sr) [] =
      [foldIntoChannel p6 sr (newMChannel p6 sr e1) e2] := by
    show mergeStep p6 sr (mergeStep p6 sr [] e1) e2 = _
    rw [step1, step2]
  have hfin : (finalizeChannel config
        (foldIntoChannel p6 sr (newMChannel p6 sr e1) e2)).sources =
      sortSourcesDesc
        [{ mkSource p6 sr e1 with
            priority := get_source_priority config (mkSource p6 sr e1) },
         { mkSource p6 sr e2 with
            priority := get_source_priority config (mkSource p6 sr e2) }] := by
    show sortSourcesDesc
        ((foldIntoChannel p6 sr (newMChannel p6 sr e1) e2).sources.map
          (fun s => { s with priority := get_source_priority config s })) = _
    rw [hsrc]
    rfl
  unfold merge_channels
  rw [hfold]
  simp only [List.map_cons, List.map_nil, List.cons.injEq, and_true]
  rw [hfin, q1, q2]
  simp [sortSourcesDesc, insertByPriority, mkSource]

/-- Witness for C6 at concrete entries: an IPv4 4K source and an IPv6
source (oracle accepting `2001:db8::1`) with the same normalized name;
the merged channel lists the IPv6 url first with priority 100, the 4K url
second with priority 40. -/
theorem merge_channels_ipv6_first_witness :
    (merge_channels ⟨false, false, false, true, 5⟩ (fun s => s = "2001:db8::1") none
      [⟨"X 4K", "X", "http://203.0.113.9/live.flv", "4K", "s1", none, false⟩,
       ⟨"X IPV6", "X", "http://[2001:db8::1]/live.flv", "未知", "s2", none, false⟩]).map
      (fun ch => ch.sources.map (fun s => (s.url, s.priority))) =
      [[("http://[2001:db8::1]/live.flv", 100), ("http://203.0.113.9/live.flv", 40)]] := by
  exact merge_channels_ipv6_first ⟨false, false, false, true, 5⟩
    (fun s => s = "2001:db8::1") none
    ⟨"X 4K", "X", "http://203.0.113.9/live.flv", "4K", "s1", none, false⟩
    ⟨"X IPV6", "X", "http://[2001:db8::1]/live.flv", "未知", "s2", none, false⟩
    rfl (by decide) rfl rfl (by decide) (by decide) rfl rfl
    ⟨by decide, by decide, by decide, by decide, by decide⟩
    ⟨by decide, by decide, by decide, by decide, by decide⟩
    (by norm_num [speedScoreOf]) (by norm_num [speedScoreOf])

/-- A placeholder channel for `List.headD` in the concrete witnesses. -/
def dummyChannel : MChannel :=
  { clean_name := "", original_names := [], sources := [], logos := [],
    categories := [], category := "",
    first_seen := ⟨"", "", "", "", "", none, false⟩ }

/-- The concrete input of the C2 witness: two entries with equal
normalized name and equal url from different feeds. -/
def w2entries : List Entry :=
  [⟨"CCTV1", "K1", "http://a/1", "未知", "s1", none, false⟩,
   ⟨"CCTV-1", "K1", "http://a/1", "未知", "s2", none, false⟩]

/-- The single channel merged from `w2entries`. -/
def w2ch : MChannel :=
  (merge_channels ⟨false, false, false, false, 5⟩ (fun _ => false) none
    w2entries).headD dummyChannel

/-- Witness for C2: the two equal urls collapse to exactly one source. -/
theorem merge_channels_url_dedup_witness :
    (urlsOf w2ch).Nodup ∧ (urlsOf w2ch).count "http://a/1" = 1 := by
  have h := merge_channels_url_dedup ⟨false, false, false, false, 5⟩
    (fun _ => false) none w2entries w2ch (by decide)
  exact ⟨h.1, h.2.2 "http://a/1" (by decide)⟩

/-- The concrete input of the C4 witness: two entries whose key
categorizes to `"卫视"`. -/
def w4entries : List Entry :=
  [⟨"北京卫视HD", "北京卫视", "http://b/1", "高清", "s1", none, false⟩,
   ⟨"北京卫视", "北京卫视", "http://b/2", "未知", "s2", none, false⟩]

/-- The single channel merged from `w4entries`. -/
def w4ch : MChannel :=
  (merge_channels ⟨false, false, false, false, 5⟩ (fun _ => false) none
    w4entries).headD dummyChannel

/-- Witness for C4: a channel folded from non-`"其他台"`-categorizing
entries does not end up categorized `"其他台"`. -/
theorem merge_channels_category_stability_witness :
    w4ch.category ≠ "其他台" := by
  have h := merge_channels_category_stability ⟨false, false, false, false, 5⟩
    (fun _ => false) none w4entries w4ch (by decide)
  exact (h.2 (by decide)).1

/-- The concrete input of the C5 witness. -/
def w5entries : List Entry :=
  [⟨"CCTV1", "CCTV-1 综合", "http://c/1", "未知", "s1", none, false⟩]

/-- The single channel merged from `w5entries`. -/
def w5ch : MChannel :=
  (merge_channels ⟨false, false, false, false, 5⟩ (fun _ => false) none
    w5entries).headD dummyChannel

/-- Witness for C5: the observed category set is the singleton of the
key's category, and the final category is its first non-`"其他台"`
element. -/
theorem merge_channels_first_non_other_witness :
    w5ch.categories = [categorize_channel w5ch.clean_name] ∧
    (w5ch.categories.filter (fun c => c ≠ "其他台")).head? = some w5ch.category := by
  have h := merge_channels_first_non_other ⟨false, false, false, false, 5⟩
    (fun _ => false) none w5entries w5ch (by decide)
  exact ⟨h.1, h.2 (by decide)⟩

/-- Every pattern of every entry of `CATEGORY_RULES`. -/
def allCategoryPats : List Pat := (CATEGORY_RULES.map (fun r => r.2)).flatten

/-- Claim C8: when no pattern of any category rule matches the name,
`categorize_channel` returns the first full province name of `PROVINCES`
occurring in the name; failing that, the full region name mapped from the
first matching 2+-character abbreviation of `PROVINCE_ABBR`; failing
that, `"其他台"`. -/
theorem categorize_region_fallback (name : String)
    (h : ∀ pat ∈ allCategoryPats, pat.search name = false) :
    categorize_channel name =
      (match PROVINCES.find? (fun p => hasSub p name) with
       | some p => p
       | none =>
         match PROVINCE_ABBR.find? (fun a => hasSub a.1 name && a.1.length ≥ 2) with
         | some a => a.2
         | none => "其他台") := by
  unfold categorize_channel
  have hnone : CATEGORY_RULES.find?
      (fun r => r.2.any (fun p => p.search name)) = none := by
    rw [List.find?_eq_none]
    intro r hr
    intro hany
    obtain ⟨p, hp, hps⟩ := List.any_eq_true.mp hany
    have hmem : p ∈ allCategoryPats :=
      List.mem_flatten.mpr ⟨r.2, List.mem_map_of_mem _ hr, hp⟩
    rw [h p hmem] at hps
    exact absurd hps (by simp)
  rw [hnone]

/-- Witness for C8: `"山西省晋城"` matches no category pattern and
contains the full province name `"山西省"`, which becomes its category. -/
theorem categorize_region_fallback_witness :
    categorize_channel "山西省晋城" = "山西省" := by
  have h := categorize_region_fallback "山西省晋城" (by decide)
  rw [h]
  decide
